import Mathlib

/-!
Verification development for the inbox-sweep core of the repository:
the mailbox (IMAP) sweep `run_email_automation` / `GmailLib` and the
channel (Graph) sweep `run_channel_automation` / `TeamsLib`.

The Python code is shallowly embedded: remote services and the
filesystem are modelled by explicit environments of outcomes, effects
are recorded as traces, Python exceptions become `Except` values, and
Python strings become Lean `String`/`List Char`.
-/

namespace LcSweep

/-- Characters kept by the mailbox adapter's filename sanitizer
(`GmailLib._sanitize_filename`): `x.isalnum() or x in " ._-"`. -/
def allowedChar (c : Char) : Bool :=
  c.isAlphanum || c == ' ' || c == '.' || c == '_' || c == '-'

/-- Python `str.strip()` on the sanitizer's data, whose only whitespace
character is the space: drop leading and trailing spaces. -/
def stripSpaces (l : List Char) : List Char :=
  ((l.dropWhile (fun c => c = ' ')).reverse.dropWhile (fun c => c = ' ')).reverse

/-- Python `str.split()` restricted to space-separated data: split into the
maximal runs of non-space characters, dropping empty pieces.  The
accumulator holds the current word, reversed. -/
def splitWsAux : List Char → List Char → List (List Char)
  | [], [] => []
  | [], cur => [cur.reverse]
  | c :: rest, cur =>
    if c = ' ' then
      if cur = [] then splitWsAux rest [] else cur.reverse :: splitWsAux rest []
    else splitWsAux rest (c :: cur)

/-- Python `" ".join(...)`. -/
def joinSpace : List (List Char) → List Char
  | [] => []
  | w :: ws =>
    match ws with
    | [] => w
    | _ :: _ => w ++ ' ' :: joinSpace ws

/-- `GmailLib._sanitize_filename` on the character list of the name, with the
source's default `max_length=200`:
keep only alphanumerics and `" ._-"`, strip; if empty fall back to
`"untitled_file"`; else truncate to 200 characters and collapse internal
whitespace runs (`" ".join(clean.split())`) and strip again. -/
def sanitizeCore (l : List Char) : List Char :=
  if stripSpaces (l.filter allowedChar) = [] then "untitled_file".data
  else stripSpaces (joinSpace (splitWsAux ((stripSpaces (l.filter allowedChar)).take 200) []))

/-- `GmailLib._sanitize_filename`. -/
def sanitizeFilename (s : String) : String :=
  String.mk (sanitizeCore s.data)

/-- The extension computed by `GmailLib.save_attachments`:
`filename.split('.')[-1] if '.' in filename else ''`, i.e. the part after
the last dot when the name has a dot, empty otherwise. -/
def lastExt (l : List Char) : List Char :=
  if '.' ∈ l then (l.reverse.takeWhile (fun c => c ≠ '.')).reverse else []

/-- Decimal rendering of a natural number, as Python `str(int)` does for the
non-negative IMAP ids. -/
def natDigits (n : Nat) : List Char :=
  if _h : n < 10 then [Nat.digitChar n]
  else natDigits (n / 10) ++ [Nat.digitChar (n % 10)]
termination_by n
decreasing_by exact Nat.div_lt_self (by omega) (by omega)

/-- Decimal rendering as a `String` (the `msg_id.decode()` of the source). -/
def natDecimal (n : Nat) : String :=
  String.mk (natDigits n)

/-- Decoder used only in proofs: reads a decimal digit list back. -/
def natVal (l : List Char) : Nat :=
  l.foldl (fun a c => a * 10 + (c.toNat - 48)) 0

/-- `os.path.join` for the forward-slash paths the sweep uses. -/
def pathJoin (a b : String) : String :=
  a ++ "/" ++ b

/-- Python `s.count("-")`: the number of hyphens of the string, used by
`run_channel_automation`'s naive GUID check. -/
def countDashes (s : String) : Nat :=
  (s.data.filter (fun c => c = '-')).length

/-- Python `s.replace(":", "-")` used on `createdDateTime` by
`TeamsLib.save_message`. -/
def replaceColons (s : String) : String :=
  String.mk (s.data.map (fun c => if c = ':' then '-' else c))

/-- Descending insertion of a message id, for `sorted(..., reverse=True)`. -/
def insertDesc (x : Nat) : List Nat → List Nat
  | [] => [x]
  | y :: ys => if y ≤ x then x :: y :: ys else y :: insertDesc x ys

/-- `sorted([int(mid) for mid in message_ids], reverse=True)` of
`GmailLib.get_message_ids_in_folder`: newest (largest) id first. -/
def sortDesc (l : List Nat) : List Nat :=
  l.foldr insertDesc []

/-! ## Mailbox adapter: `GmailLib` and `run_email_automation` -/

/-- `ErrorType` of gmail_lib.py. -/
inductive GErrorType
  | loginFailed
  | folderListFailed
  | folderSelectFailed
  | searchFailed
  | fetchFailed
  | copyFailed
  | moveFailed
  | deleteToTrashFailed
  | filesystemError
  | gmailError
  | unknownError
deriving DecidableEq, Repr

/-- `GMAIL_LIB_EXCEPTION`: an error type together with a message. -/
structure GmailError where
  type : GErrorType
  message : String
deriving DecidableEq, Repr

/-- The observable IMAP and filesystem effects of the mailbox adapter. -/
inductive GEvent
  | login
  | logout
  | listFolders
  | selectFolder (folder : String)
  | searchAll
  | fetch (msgId : Nat)
  | copy (msgId : Nat) (target : String)
  | store (msgId : Nat)
  | expunge
  | writeFile (path : String)
deriving DecidableEq, Repr

/-- One MIME part of a fetched e-mail, as `email.message.walk()` exposes it:
the multipart flag, the Content-Disposition header, the attachment filename
and the decoded payload (`get_payload(decode=True)`; `none` models a payload
that decodes to `None`, i.e. a malformed embedded attachment). -/
structure GPart where
  isMultipart : Bool
  contentDisposition : Option String
  filename : Option String
  payload : Option String
deriving DecidableEq, Repr

/-- A fetched e-mail: its decoded subject and its MIME parts.  The raw bytes
written by `save_email` are not tracked beyond the write event. -/
structure GMessage where
  subject : String
  parts : List GPart
deriving DecidableEq, Repr

/-- The IMAP server's and local filesystem's responses for one mailbox run.
Errors are given as the raw server message; the library wraps them into
`GMAIL_LIB_EXCEPTION`s itself.  `folders` already holds the parsed
selectable folder names (the utf-7/regex parsing of `list_all_folders` is
not claim-relevant). -/
structure GmailEnv where
  imapLoginError : Option String
  folders : Except String (List String)
  searchIds : Except String (List Nat)
  fetchMsg : Nat → Except String GMessage
  mkdirEmailsOk : Bool
  mkdirAnlagenOk : Bool
  writeBody : Nat → Bool
  writeAttachment : Nat → Nat → Bool
  copyOk : Nat → Bool
  storeOk : Nat → Bool
  logoutOk : Bool

/-- A fresh login attempt of `GmailLib._login`: connect, then `login`.
On a bad credential the imap error is wrapped into a `LOGIN_FAILED`
exception; the connection object stays behind unauthenticated. -/
def gmailLoginAttempt (env : GmailEnv) (user : String) :
    List GEvent × Except GmailError Unit × Option String :=
  match env.imapLoginError with
  | none => ([GEvent.login], .ok (), some "AUTH")
  | some e =>
    ([GEvent.login],
      .error ⟨GErrorType.loginFailed,
        "Login fehlgeschlagen für " ++ user ++
          ": Prüfe Benutzername/App-Passwort oder IMAP-Aktivierung. (" ++ e ++ ")"⟩,
      some "NONAUTH")

/-- `GmailLib._login`, acting on the connection state (`none` = no
connection yet, `some "AUTH"` = authenticated).  When the state is already
AUTH the call returns at once without any IMAP round-trip. -/
def gmailLogin (env : GmailEnv) (user : String) (mailState : Option String) :
    List GEvent × Except GmailError Unit × Option String :=
  match mailState with
  | some s => if s = "AUTH" then ([], .ok (), some s) else gmailLoginAttempt env user
  | none => gmailLoginAttempt env user

/-- `GmailLib.list_all_folders`: one LIST round-trip; an IMAP failure is
wrapped into `FOLDER_LIST_FAILED`. -/
def gmailListAllFolders (env : GmailEnv) : List GEvent × Except GmailError (List String) :=
  match env.folders with
  | .ok fl => ([GEvent.listFolders], .ok fl)
  | .error m =>
    ([GEvent.listFolders],
      .error ⟨GErrorType.folderListFailed, "IMAP-Fehler beim Auflisten der Ordner: " ++ m⟩)

/-- `GmailLib.folder_exists`: membership in the listed folders; absence is a
normal `false`, only the LIST failure raises. -/
def gmailFolderExists (env : GmailEnv) (name : String) :
    List GEvent × Except GmailError Bool :=
  match gmailListAllFolders env with
  | (evs, .ok fl) => (evs, .ok (fl.contains name))
  | (evs, .error e) => (evs, .error e)

/-- `GmailLib.get_message_ids_in_folder`: select the folder, search ALL and
sort the numeric ids descending (newest first). -/
def gmailGetMessageIds (env : GmailEnv) (folder : String) :
    List GEvent × Except GmailError (List Nat) :=
  match env.searchIds with
  | .ok ids => ([GEvent.selectFolder folder, GEvent.searchAll], .ok (sortDesc ids))
  | .error m =>
    ([GEvent.selectFolder folder, GEvent.searchAll],
      .error ⟨GErrorType.searchFailed,
        "Fehler bei der Suche nach E-Mails im Ordner " ++ folder ++ ": " ++ m⟩)

/-- `GmailLib._fetch_email_message`: one FETCH round-trip; a failure is
wrapped into `FETCH_FAILED`. -/
def gmailFetchEmailMessage (env : GmailEnv) (msgId : Nat) :
    List GEvent × Except GmailError GMessage :=
  match env.fetchMsg msgId with
  | .ok m => ([GEvent.fetch msgId], .ok m)
  | .error m => ([GEvent.fetch msgId], .error ⟨GErrorType.fetchFailed, m⟩)

/-- `GmailLib.has_attachments(msg_id)`: fetches the message itself (it takes
an id, not a message) and then walks the parts looking for one that is not
multipart and has a Content-Disposition header. -/
def gmailHasAttachments (env : GmailEnv) (msgId : Nat) :
    List GEvent × Except GmailError Bool :=
  match gmailFetchEmailMessage env msgId with
  | (evs, .error e) => (evs, .error e)
  | (evs, .ok m) =>
    (evs, .ok (m.parts.any (fun p => !p.isMultipart && p.contentDisposition.isSome)))

/-- The body filename `GmailLib.save_email` builds: sanitized subject,
underscore, the message id, and the fixed `.eml` extension. -/
def gmailEmailFilename (subject : String) (msgId : Nat) : String :=
  sanitizeFilename subject ++ "_" ++ natDecimal msgId ++ ".eml"

/-- `GmailLib.save_email`: ensure `E-Mails/`, re-fetch the message, write it
as `<sanitized subject>_<id>.eml`.  Fetch errors are re-wrapped as
`GMAIL_ERROR`, filesystem errors as `FILESYSTEM_ERROR`. -/
def gmailSaveEmail (env : GmailEnv) (msgId : Nat) (savePath : String) :
    List GEvent × Except GmailError String :=
  if ¬ env.mkdirEmailsOk then
    ([], .error ⟨GErrorType.filesystemError,
      "Dateisystem-Fehler beim Erstellen des E-Mail-Speicherordners"⟩)
  else
    match env.fetchMsg msgId with
    | .error m =>
      ([GEvent.fetch msgId],
        .error ⟨GErrorType.gmailError, "Fehler beim Abrufen der E-Mail zum Speichern: " ++ m⟩)
    | .ok msg =>
      if env.writeBody msgId then
        ([GEvent.fetch msgId, GEvent.writeFile (pathJoin (pathJoin savePath "E-Mails")
            (gmailEmailFilename msg.subject msgId))],
          .ok (gmailEmailFilename msg.subject msgId))
      else
        ([GEvent.fetch msgId],
          .error ⟨GErrorType.filesystemError,
            "Dateisystem-Fehler beim Speichern der E-Mail " ++
              gmailEmailFilename msg.subject msgId⟩)

/-- The attachment filename `GmailLib.save_attachments` builds: sanitized
name, underscore, message id, underscore, running index, and the original
extension when the name has one of at most five characters. -/
def gmailAttachmentName (filename : List Char) (msgId saved : Nat) : List Char :=
  if lastExt filename ≠ [] ∧ (lastExt filename).length ≤ 5 then
    sanitizeCore filename ++ '_' :: natDigits msgId ++ '_' :: natDigits saved ++
      '.' :: lastExt filename
  else
    sanitizeCore filename ++ '_' :: natDigits msgId ++ '_' :: natDigits saved

/-- `gmailAttachmentName` on strings. -/
def gmailAttachmentFilename (filename : String) (msgId saved : Nat) : String :=
  String.mk (gmailAttachmentName filename.data msgId saved)

/-- The per-part loop of `GmailLib.save_attachments`: walk the parts,
skipping multipart containers, parts without Content-Disposition and parts
without a (non-empty) filename; write each named attachment.  A `None`
payload (`f.write(None)` raises) or a filesystem failure raises
`FILESYSTEM_ERROR` and aborts the loop.  Returns the events, the names
written, and the final count or the first error. -/
def gmailAttLoop (env : GmailEnv) (msgId : Nat) (savePath : String) :
    List GPart → Nat → List GEvent × List String × Except GmailError Nat
  | [], saved => ([], [], .ok saved)
  | p :: rest, saved =>
    if p.isMultipart ∨ p.contentDisposition = none then
      gmailAttLoop env msgId savePath rest saved
    else
      match p.filename with
      | none => gmailAttLoop env msgId savePath rest saved
      | some fn =>
        if fn = "" then gmailAttLoop env msgId savePath rest saved
        else
          match p.payload with
          | none =>
            ([], [],
              .error ⟨GErrorType.filesystemError,
                "Dateisystem-Fehler beim Speichern des Anhangs " ++
                  gmailAttachmentFilename fn msgId saved⟩)
          | some _ =>
            if env.writeAttachment msgId saved then
              (GEvent.writeFile (pathJoin (pathJoin savePath "Anlagen")
                  (gmailAttachmentFilename fn msgId saved)) ::
                (gmailAttLoop env msgId savePath rest (saved + 1)).1,
               gmailAttachmentFilename fn msgId saved ::
                (gmailAttLoop env msgId savePath rest (saved + 1)).2.1,
               (gmailAttLoop env msgId savePath rest (saved + 1)).2.2)
            else
              ([], [],
                .error ⟨GErrorType.filesystemError,
                  "Dateisystem-Fehler beim Speichern des Anhangs " ++
                    gmailAttachmentFilename fn msgId saved⟩)

/-- `GmailLib.save_attachments`: ensure `Anlagen/`, re-fetch the message
(another network round-trip), then run the per-part loop. -/
def gmailSaveAttachments (env : GmailEnv) (msgId : Nat) (savePath : String) :
    List GEvent × List String × Except GmailError Nat :=
  if ¬ env.mkdirAnlagenOk then
    ([], [], .error ⟨GErrorType.filesystemError,
      "Dateisystem-Fehler beim Erstellen des Anhänge-Speicherordners"⟩)
  else
    match env.fetchMsg msgId with
    | .error m =>
      ([GEvent.fetch msgId], [],
        .error ⟨GErrorType.gmailError,
          "Fehler beim Abrufen der E-Mail zum Speichern von Anhängen: " ++ m⟩)
    | .ok msg =>
      (GEvent.fetch msgId :: (gmailAttLoop env msgId savePath msg.parts 0).1,
        (gmailAttLoop env msgId savePath msg.parts 0).2.1,
        (gmailAttLoop env msgId savePath msg.parts 0).2.2)

/-- `GmailLib.move_object`: select the source, COPY to the target (a failure
raises `COPY_FAILED`), flag `\Deleted` (a failure is only a logged
warning) and EXPUNGE. -/
def gmailMoveObject (env : GmailEnv) (msgId : Nat) (source target : String) :
    List GEvent × Except GmailError Unit :=
  if env.copyOk msgId then
    ([GEvent.selectFolder source, GEvent.copy msgId target, GEvent.store msgId,
      GEvent.expunge], .ok ())
  else
    ([GEvent.selectFolder source, GEvent.copy msgId target],
      .error ⟨GErrorType.copyFailed, "Fehler beim Kopieren der E-Mail nach " ++ target⟩)

/-- Accumulated observable state of `run_email_automation`'s message loop. -/
structure GLoopAcc where
  trace : List GEvent
  processed : Nat
  movedIds : List Nat
  savedBodies : List Nat
  attWrites : List String
deriving DecidableEq, Repr

/-- The move step at the end of one iteration of `run_email_automation`'s
loop: `move_object`, then the processed counter. -/
def gmailStepMove (env : GmailEnv) (source target : String) (acc4 : GLoopAcc)
    (msgId : Nat) : GLoopAcc × Option (Nat × GmailError) :=
  match gmailMoveObject env msgId source target with
  | (evM, .error e) => ({ acc4 with trace := acc4.trace ++ evM }, some (msgId, e))
  | (evM, .ok _) =>
    ({ acc4 with trace := acc4.trace ++ evM,
                 movedIds := acc4.movedIds ++ [msgId],
                 processed := acc4.processed + 1 }, none)

/-- The tail of one iteration of `run_email_automation`'s loop, after the
guarded `save_attachments`: an uncaught `save_email` error escapes with the
offending id; on success the body is recorded and the move follows. -/
def gmailStepAfterHas (env : GmailEnv) (source target savePath : String)
    (acc2 : GLoopAcc) (msgId : Nat) : GLoopAcc × Option (Nat × GmailError) :=
  match gmailSaveEmail env msgId savePath with
  | (evB, .error e) => ({ acc2 with trace := acc2.trace ++ evB }, some (msgId, e))
  | (evB, .ok _) =>
    gmailStepMove env source target
      { acc2 with trace := acc2.trace ++ evB,
                  savedBodies := acc2.savedBodies ++ [msgId] } msgId

/-- One iteration of `run_email_automation`'s loop: `has_attachments`
(which fetches), the guarded `save_attachments` (its `GMAIL_LIB_EXCEPTION`
is caught and only logged, its writes and trace still happened),
`save_email`, `move_object`.  Every uncaught error escapes with the
offending id. -/
def gmailStep (env : GmailEnv) (source target savePath : String)
    (acc : GLoopAcc) (msgId : Nat) : GLoopAcc × Option (Nat × GmailError) :=
  match gmailHasAttachments env msgId with
  | (evH, .error e) => ({ acc with trace := acc.trace ++ evH }, some (msgId, e))
  | (evH, .ok hasAtt) =>
    gmailStepAfterHas env source target savePath
      (if hasAtt then
        { acc with trace := acc.trace ++ evH ++ (gmailSaveAttachments env msgId savePath).1,
                   attWrites := acc.attWrites ++ (gmailSaveAttachments env msgId savePath).2.1 }
       else { acc with trace := acc.trace ++ evH }) msgId

/-- `run_email_automation`'s message loop: process ids in order until one
raises an uncaught error; that error escapes the loop. -/
def gmailLoop (env : GmailEnv) (source target savePath : String) :
    List Nat → GLoopAcc → GLoopAcc × Option (Nat × GmailError)
  | [], acc => (acc, none)
  | msgId :: rest, acc =>
    match gmailStep env source target savePath acc msgId with
    | (acc1, some e) => (acc1, some e)
    | (acc1, none) => gmailLoop env source target savePath rest acc1

/-- The run-level exception that can escape `run_email_automation`'s
boundary: the handlers format `msg_id.decode()` (and the tail returns
`success`), but before the loop has run those locals are unbound, so the
handler itself raises a Python `NameError`. -/
inductive GRunErr
  | nameError (v : String)
deriving DecidableEq, Repr

/-- What one mailbox sweep run returns and does. -/
structure GmailRunRes where
  outcome : Except GRunErr (Bool × String)
  trace : List GEvent
  processed : Nat
  movedIds : List Nat
  savedBodies : List Nat
deriving Repr

/-- The initial, empty loop accumulator. -/
def gAcc0 : GLoopAcc := ⟨[], 0, [], [], []⟩

/-- `run_email_automation` (gmail_processor.py): login, check both folders,
list and sort the ids, run the loop, and always attempt the logout in the
`finally` block (its own failure is caught).  A `GMAIL_LIB_EXCEPTION`
raised before the loop reaches a handler that reads the unbound `msg_id`,
so a `NameError` escapes; an error from inside the loop yields the
`(False, message)` pair naming the offending id. -/
def runEmailAutomation (env : GmailEnv) (user source target savePath : String) :
    GmailRunRes :=
  let lg := gmailLogin env user none
  match lg.2.1 with
  | .error _ => ⟨.error (GRunErr.nameError "msg_id"), lg.1 ++ [GEvent.logout], 0, [], []⟩
  | .ok _ =>
    let fe1 := gmailFolderExists env source
    match fe1.2 with
    | .error _ =>
      ⟨.error (GRunErr.nameError "msg_id"), lg.1 ++ fe1.1 ++ [GEvent.logout], 0, [], []⟩
    | .ok srcEx =>
      if ¬ srcEx then
        ⟨.ok (false, "Fehler: Quellordner '" ++ source ++ "' existiert nicht in Gmail."),
          lg.1 ++ fe1.1 ++ [GEvent.logout], 0, [], []⟩
      else
        let fe2 := gmailFolderExists env target
        match fe2.2 with
        | .error _ =>
          ⟨.error (GRunErr.nameError "msg_id"),
            lg.1 ++ fe1.1 ++ fe2.1 ++ [GEvent.logout], 0, [], []⟩
        | .ok tgtEx =>
          if ¬ tgtEx then
            ⟨.ok (false, "Fehler: Zielordner '" ++ target ++
                "' existiert nicht in Gmail. Bitte erstellen Sie ihn."),
              lg.1 ++ fe1.1 ++ fe2.1 ++ [GEvent.logout], 0, [], []⟩
          else
            let gi := gmailGetMessageIds env source
            let pre := lg.1 ++ fe1.1 ++ fe2.1 ++ gi.1
            match gi.2 with
            | .error _ =>
              ⟨.error (GRunErr.nameError "msg_id"), pre ++ [GEvent.logout], 0, [], []⟩
            | .ok ids =>
              if ids = [] then
                ⟨.ok (true, "Keine neuen E-Mails im Ordner '" ++ source ++
                    "' gefunden, die verarbeitet werden müssen."),
                  pre ++ [GEvent.logout], 0, [], []⟩
              else
                let lp := gmailLoop env source target savePath ids gAcc0
                match lp.2 with
                | none =>
                  ⟨.ok (true, natDecimal lp.1.processed ++ " von " ++
                      natDecimal ids.length ++
                      " E-Mails erfolgreich verarbeitet und verschoben."),
                    pre ++ lp.1.trace ++ [GEvent.logout],
                    lp.1.processed, lp.1.movedIds, lp.1.savedBodies⟩
                | some me =>
                  ⟨.ok (false, "Fehler bei der Verarbeitung von E-Mail " ++
                      natDecimal me.1 ++ ": " ++ me.2.message),
                    pre ++ lp.1.trace ++ [GEvent.logout],
                    lp.1.processed, lp.1.movedIds, lp.1.savedBodies⟩

/-! ## Channel adapter: `TeamsLib` and `run_channel_automation` -/

/-- `ErrorType` of teams_lib.py. -/
inductive TErrKind
  | auth
  | api
  | ioErr
  | notFound
  | rateLimit
  | unknown
deriving DecidableEq, Repr

/-- `TEAMS_LIB_EXCEPTION`: message, kind, and an optional HTTP status. -/
structure TeamsError where
  message : String
  kind : TErrKind
  status : Option Nat
deriving DecidableEq, Repr

/-- A Python exception inside the channel sweep: the library's own
`TEAMS_LIB_EXCEPTION`, or any other exception (an OSError from the
filesystem, a binascii error from base64 decoding, a json error). -/
inductive TExc
  | lib (e : TeamsError)
  | py (msg : String)
deriving DecidableEq, Repr

/-- One HTTP response as `TeamsLib._request` inspects it: the status code
and the integer Retry-After header when present (its absence defaults
to 2 seconds). -/
structure TResp where
  status : Nat
  retryAfter : Option Nat
deriving DecidableEq, Repr

/-- requests' `resp.ok`: a status below 400. -/
def respOk (r : TResp) : Bool := r.status < 400

/-- A response `TeamsLib._request` retries on: 429, or any 5xx. -/
def retriable (r : TResp) : Bool :=
  r.status == 429 || (500 ≤ r.status && r.status < 600)

/-- The retry loop of `TeamsLib._request`: `resp i` is the service's answer
to the i-th attempt.  On 429 the loop sleeps the Retry-After seconds
(default 2) and retries; on a 5xx it sleeps `1 + attempt` seconds (linear
back-off) and retries; any other non-ok status raises the `API` error with
the status at once; an ok response is returned.  When all 5 attempts were
retried away, the `RATE_LIMIT` error is raised.  The returned list holds
the sleeps performed, in seconds and in order. -/
def requestGo (resp : Nat → TResp) :
    Nat → Nat → List Nat → List Nat × Except TeamsError TResp
  | _, 0, sleeps =>
    (sleeps, .error ⟨"Exceeded retries for Graph API call", TErrKind.rateLimit, none⟩)
  | attempt, fuel + 1, sleeps =>
    let r := resp attempt
    if r.status = 429 then
      requestGo resp (attempt + 1) fuel (sleeps ++ [r.retryAfter.getD 2])
    else if 500 ≤ r.status ∧ r.status < 600 then
      requestGo resp (attempt + 1) fuel (sleeps ++ [1 + attempt])
    else if ¬ respOk r then
      (sleeps,
        .error ⟨"Graph API error " ++ natDecimal r.status, TErrKind.api, some r.status⟩)
    else (sleeps, .ok r)

/-- `TeamsLib._request`: the retry loop started at attempt 0 with 5
attempts available (`for attempt in range(5)`). -/
def teamsRequest (resp : Nat → TResp) : List Nat × Except TeamsError TResp :=
  requestGo resp 0 5 []

/-- The fields of teams_lib.py's `AuthConfig` that the login logic reads. -/
structure AuthConfig where
  tenantId : String
  clientId : String
  clientSecret : Option String
  useDeviceCode : Bool
deriving DecidableEq, Repr

/-- MSAL's answers for one run: whether the package imports, whether the
device flow comes back with a user code, and the tokens the two grant
flavors return (`none` = no `access_token` in the result). -/
structure TAuthEnv where
  msalAvailable : Bool
  deviceFlowHasUserCode : Bool
  deviceFlowToken : Option String
  clientCredToken : Option String
deriving DecidableEq, Repr

/-- The observable remote and local effects of the channel adapter. -/
inductive TEvent
  | authRoundTrip
  | lookupTeams
  | lookupChannels (teamId : String)
  | checkChannel (teamId channelId : String)
  | listMessages (teamId channelId : String)
  | fetchMessage (mid : String)
  | writeCheckpoint
  | logout
deriving DecidableEq, Repr

/-- `TeamsLib._login`: performs a fresh token acquisition on every call —
the method never checks the already-present `_access_token`.  Fails `AUTH`
when msal is missing, when the device flow has no user code, when the
client secret is missing (or empty) for the client-credentials flow, or
when the result holds no `access_token`.  Returns the trace (each MSAL
network round-trip), the outcome and the new token state. -/
def teamsLogin (env : TAuthEnv) (auth : AuthConfig) (accessToken : Option String) :
    List TEvent × Except TeamsError Unit × Option String :=
  if ¬ env.msalAvailable then
    ([], .error ⟨"msal package is not installed. pip install msal", TErrKind.auth, none⟩,
      accessToken)
  else if auth.useDeviceCode then
    if ¬ env.deviceFlowHasUserCode then
      ([TEvent.authRoundTrip],
        .error ⟨"Failed to create device flow.", TErrKind.auth, none⟩, accessToken)
    else
      match env.deviceFlowToken with
      | some t => ([TEvent.authRoundTrip, TEvent.authRoundTrip], .ok (), some t)
      | none =>
        ([TEvent.authRoundTrip, TEvent.authRoundTrip],
          .error ⟨"Auth failed: unknown", TErrKind.auth, none⟩, accessToken)
  else
    match auth.clientSecret with
    | none =>
      ([], .error ⟨"client_secret required for client-credentials flow",
        TErrKind.auth, none⟩, accessToken)
    | some s =>
      if s = "" then
        ([], .error ⟨"client_secret required for client-credentials flow",
          TErrKind.auth, none⟩, accessToken)
      else
        match env.clientCredToken with
        | some t => ([TEvent.authRoundTrip], .ok (), some t)
        | none =>
          ([TEvent.authRoundTrip],
            .error ⟨"Auth failed: unknown", TErrKind.auth, none⟩, accessToken)

/-- One Teams attachment descriptor as the Graph message carries it. -/
structure TAttachment where
  odataType : Option String
  name : Option String
  contentBytes : Option String
  previewUrl : Option String
  sourceUrl : Option String
deriving DecidableEq, Repr

/-- One fetched Teams channel message.  The author fields only flow into
the body text of the written file, which the model tracks as a write
event, so they are elided. -/
structure TMessage where
  id : Option String
  createdDateTime : String
  subject : Option String
  bodyContent : Option String
  attachments : List TAttachment
deriving DecidableEq, Repr

/-- `TeamsLib.has_attachments`: `bool(message.get("attachments", []))` — a
pure inspection of the already-fetched message. -/
def teamsHasAttachments (m : TMessage) : Bool :=
  !m.attachments.isEmpty

/-- Python's `a or b` on optional strings, where the empty string is falsy. -/
def pyOrStr (a b : Option String) : Option String :=
  match a with
  | some s => if s = "" then b else some s
  | none => b

/-- `att.get("name") or "attachment"` of `TeamsLib._download_attachment`. -/
def tAttName (att : TAttachment) : String :=
  match att.name with
  | some s => if s = "" then "attachment" else s
  | none => "attachment"

/-- The filesystem's and download host's answers for the channel adapter. -/
structure TeamsFsEnv where
  mkdirOk : String → Bool
  writeOk : String → Bool
  b64Valid : String → Bool
  httpGetStatus : String → Nat

/-- `TeamsLib._download_attachment` (modelled after a successful login, the
bearer token present).  Embedded file attachments: empty content raises
the library's `API` error, invalid base64 raises a plain binascii
exception, otherwise `Anlagen/<name>` is written.  Reference attachments:
a missing URL raises the `API` error; an authenticated GET with status 200
writes the file, any other status writes the `<name>.url.txt` pointer file
holding the URL instead.  Any other @odata.type raises the `API` error.
Returns the paths written. -/
def downloadAttachment (fs : TeamsFsEnv) (att : TAttachment) (savePath : String) :
    Except TExc (List String) :=
  let dir := pathJoin savePath "Anlagen"
  let name := tAttName att
  if att.odataType = some "#microsoft.graph.fileAttachment" then
    match att.contentBytes with
    | none => .error (.lib ⟨"Empty fileAttachment content", TErrKind.api, none⟩)
    | some cb =>
      if cb = "" then .error (.lib ⟨"Empty fileAttachment content", TErrKind.api, none⟩)
      else if ¬ fs.b64Valid cb then .error (.py "binascii.Error: invalid base64")
      else
        let p := pathJoin dir name
        if fs.writeOk p then .ok [p] else .error (.py "OSError")
  else if att.odataType = some "#microsoft.graph.referenceAttachment" then
    match pyOrStr att.previewUrl att.sourceUrl with
    | none => .error (.lib ⟨"referenceAttachment missing URL", TErrKind.api, none⟩)
    | some u =>
      if u = "" then .error (.lib ⟨"referenceAttachment missing URL", TErrKind.api, none⟩)
      else if fs.httpGetStatus u = 200 then
        let p := pathJoin dir name
        if fs.writeOk p then .ok [p] else .error (.py "OSError")
      else
        let p := pathJoin dir (name ++ ".url.txt")
        if fs.writeOk p then .ok [p] else .error (.py "OSError")
  else
    .error (.lib ⟨"Unsupported attachment type", TErrKind.api, none⟩)

/-- The per-attachment loop of `TeamsLib.save_attachments`: a
`TEAMS_LIB_EXCEPTION` from one download is caught and logged and the loop
continues; any other exception escapes at once.  Returns the paths written
and the escaping exception, if any. -/
def teamsAttLoop (fs : TeamsFsEnv) (savePath : String) :
    List TAttachment → List String × Option TExc
  | [] => ([], none)
  | att :: rest =>
    match downloadAttachment fs att savePath with
    | .ok ws =>
      (ws ++ (teamsAttLoop fs savePath rest).1, (teamsAttLoop fs savePath rest).2)
    | .error (.lib _) => teamsAttLoop fs savePath rest
    | .error (.py m) => ([], some (.py m))

/-- `TeamsLib.save_attachments`: ensure `Anlagen/` (an OSError there
propagates), then run the per-attachment loop. -/
def teamsSaveAttachments (fs : TeamsFsEnv) (msg : TMessage) (savePath : String) :
    List String × Option TExc :=
  if ¬ fs.mkdirOk (pathJoin savePath "Anlagen") then ([], some (.py "OSError: makedirs"))
  else teamsAttLoop fs savePath msg.attachments

/-- The body filename `TeamsLib.save_message` builds: `createdDateTime`
with colons replaced by hyphens, underscore, the message id (or
`"unknown"`), and the fixed `.txt` extension. -/
def teamsMessageFilename (msg : TMessage) : String :=
  replaceColons msg.createdDateTime ++ "_" ++ msg.id.getD "unknown" ++ ".txt"

/-- `TeamsLib.save_message`: ensure `E-Mails/` (an OSError there
propagates), write the body file (an OSError there is wrapped into the
library's `IO` error). -/
def teamsSaveMessage (fs : TeamsFsEnv) (msg : TMessage) (savePath : String) :
    List String × Option TExc :=
  let dir := pathJoin savePath "E-Mails"
  if ¬ fs.mkdirOk dir then ([], some (.py "OSError: makedirs"))
  else
    let p := pathJoin dir (teamsMessageFilename msg)
    if fs.writeOk p then ([p], none)
    else ([], some (.lib ⟨"Failed to write message file: OSError", TErrKind.ioErr, none⟩))

/-- What `TeamsLib.load_checkpoint` finds at
`save_path/.teams_checkpoint.json`: no file (first run), an unreadable
file (the json error propagates), or the stored `processed_ids`. -/
inductive CheckpointLoad
  | absent
  | unreadable
  | loaded (processedIds : List String)
deriving DecidableEq, Repr

/-- `TeamsLib.load_checkpoint` composed with the orchestrator's
`checkpoint.get("processed_ids", [])`: an absent file yields the empty
list, an unreadable one raises. -/
def loadCheckpointIds : CheckpointLoad → Except TExc (List String)
  | .absent => .ok []
  | .unreadable => .error (.py "json.JSONDecodeError")
  | .loaded ids => .ok ids

/-- The remote service's and filesystem's answers for one channel run.
The name lookups and the existence check page through `_request`
internally; their outcomes are given directly. -/
structure TeamsEnv where
  auth : TAuthEnv
  fs : TeamsFsEnv
  teamIdByName : String → Except TeamsError String
  channelIdByName : String → String → Except TeamsError String
  channelExistsResult : String → String → Except TeamsError Bool
  checkpointFile : CheckpointLoad
  listResult : Except TeamsError (List String)
  getMsg : String → Except TeamsError TMessage
  saveCheckpointOk : Bool

/-- Observable state of `run_channel_automation`'s message loop. -/
structure TLoopSt where
  processedIds : Finset String
  processed : Nat
  fetched : List String
  savedMsgs : List String
  writes : List String
deriving DecidableEq

/-- The tail of one loop iteration of `run_channel_automation`, after the
attachments were handled: `save_message`; a failure there is caught by the
per-item handlers and the item is not counted; on success the id is
counted and added to the processed set.  `st2` already carries the fetch
and the attachment writes. -/
def channelAfterAtt (env : TeamsEnv) (savePath : String) (msg : TMessage)
    (st2 : TLoopSt) (mid : String) : TLoopSt :=
  match teamsSaveMessage env.fs msg savePath with
  | (_, some _) => st2
  | (ws2, none) =>
    { st2 with writes := st2.writes ++ ws2,
               savedMsgs := st2.savedMsgs ++ [mid],
               processed := st2.processed + 1,
               processedIds := insert mid st2.processedIds }

/-- The per-message part of one loop iteration of `run_channel_automation`:
save the attachments when there are any — a `TEAMS_LIB_EXCEPTION` is
caught and logged by the inner handler and the item goes on, while any
other exception is caught by the per-item handlers and aborts just this
item — then save the message.  `st1` already carries the fetch. -/
def channelItem (env : TeamsEnv) (savePath : String) (msg : TMessage)
    (st1 : TLoopSt) (mid : String) : TLoopSt :=
  match (if teamsHasAttachments msg then teamsSaveAttachments env.fs msg savePath
      else ([], none)) with
  | (ws, some (.py _)) => { st1 with writes := st1.writes ++ ws }
  | (ws, _) => channelAfterAtt env savePath msg { st1 with writes := st1.writes ++ ws } mid

/-- One iteration of `run_channel_automation`'s loop: skip an id already in
the processed set; otherwise fetch it (a fetch failure is caught per item)
and run the per-message part.  Every per-item exception is caught
(`except TEAMS_LIB_EXCEPTION`, then `except Exception`), so the loop
always continues with the next id. -/
def channelStep (env : TeamsEnv) (savePath : String) (st : TLoopSt) (mid : String) :
    TLoopSt :=
  if mid ∈ st.processedIds then st
  else
    match env.getMsg mid with
    | .error _ => { st with fetched := st.fetched ++ [mid] }
    | .ok msg =>
      channelItem env savePath msg { st with fetched := st.fetched ++ [mid] } mid

/-- `run_channel_automation`'s message loop. -/
def channelLoop (env : TeamsEnv) (savePath : String) (mids : List String)
    (st : TLoopSt) : TLoopSt :=
  mids.foldl (channelStep env savePath) st

/-- The two run-level handlers of `run_channel_automation`. -/
def channelHandler : TExc → Bool × String
  | .lib e => (false, "Fehler in Teams-Orchestrierung: " ++ e.message)
  | .py m => (false, "Unerwarteter Fehler in Teams-Orchestrierung: " ++ m)

/-- The try-block of `run_channel_automation` (everything before the
`finally`): either a returned pair or the exception escaping to the
run-level handlers, together with the observable effects. -/
structure ChannelBody where
  result : Except TExc (Bool × String)
  trace : List TEvent
  fetched : List String
  savedMsgs : List String
  processed : Nat
  total : Nat
  savedCheckpoint : Option (Finset String)

/-- The team-id resolution of `run_channel_automation`: an argument holding
exactly four hyphens is taken verbatim as a GUID (the "naive GUID check");
otherwise `get_team_id_by_name` pages through the teams. -/
def resolveTeam (env : TeamsEnv) (teamArg : String) :
    List TEvent × Except TeamsError String :=
  if countDashes teamArg = 4 then ([], .ok teamArg)
  else ([TEvent.lookupTeams], env.teamIdByName teamArg)

/-- The channel-id resolution of `run_channel_automation`: same naive GUID
check, else `get_channel_id_by_name`. -/
def resolveChannel (env : TeamsEnv) (teamId channelArg : String) :
    List TEvent × Except TeamsError String :=
  if countDashes channelArg = 4 then ([], .ok channelArg)
  else ([TEvent.lookupChannels teamId], env.channelIdByName teamId channelArg)

/-- The body of `run_channel_automation`: login, resolve the team and the
channel, check the channel exists, load the checkpoint, list the root
message ids, run the loop, and persist the grown checkpoint set. -/
def channelBody (env : TeamsEnv) (auth : AuthConfig)
    (teamArg channelArg savePath : String) : ChannelBody :=
  match (teamsLogin env.auth auth none).2.1 with
  | .error e => ⟨.error (.lib e), (teamsLogin env.auth auth none).1, [], [], 0, 0, none⟩
  | .ok _ =>
    let tr0 := (teamsLogin env.auth auth none).1 ++ (resolveTeam env teamArg).1
    match (resolveTeam env teamArg).2 with
    | .error e => ⟨.error (.lib e), tr0, [], [], 0, 0, none⟩
    | .ok teamId =>
      let tr1 := tr0 ++ (resolveChannel env teamId channelArg).1
      match (resolveChannel env teamId channelArg).2 with
      | .error e => ⟨.error (.lib e), tr1, [], [], 0, 0, none⟩
      | .ok channelId =>
        let tr2 := tr1 ++ [TEvent.checkChannel teamId channelId]
        match env.channelExistsResult teamId channelId with
        | .error e => ⟨.error (.lib e), tr2, [], [], 0, 0, none⟩
        | .ok ex =>
          if ¬ ex then
            ⟨.ok (false, "Fehler: Kanal '" ++ channelArg ++
              "' existiert nicht im Team '" ++ teamArg ++ "'."), tr2, [], [], 0, 0, none⟩
          else
            match loadCheckpointIds env.checkpointFile with
            | .error e => ⟨.error e, tr2, [], [], 0, 0, none⟩
            | .ok cpIds =>
              let tr3 := tr2 ++ [TEvent.listMessages teamId channelId]
              match env.listResult with
              | .error e => ⟨.error (.lib e), tr3, [], [], 0, 0, none⟩
              | .ok mids =>
                if mids = [] then
                  ⟨.ok (true, "Keine neuen Nachrichten im Kanal gefunden."),
                    tr3, [], [], 0, 0, none⟩
                else
                  let stF := channelLoop env savePath mids ⟨cpIds.toFinset, 0, [], [], []⟩
                  let tr4 := tr3 ++ stF.fetched.map TEvent.fetchMessage
                  if env.saveCheckpointOk then
                    ⟨.ok (true, natDecimal stF.processed ++ " von " ++
                        natDecimal mids.length ++ " Nachrichten verarbeitet."),
                      tr4 ++ [TEvent.writeCheckpoint], stF.fetched, stF.savedMsgs,
                      stF.processed, mids.length, some stF.processedIds⟩
                  else
                    ⟨.error (.py "OSError: save_checkpoint"), tr4, stF.fetched,
                      stF.savedMsgs, stF.processed, mids.length, none⟩

/-- What one channel sweep run returns and does. -/
structure ChannelRunRes where
  outcome : Except TExc (Bool × String)
  trace : List TEvent
  fetched : List String
  savedMsgs : List String
  processed : Nat
  total : Nat
  savedCheckpoint : Option (Finset String)

/-- `run_channel_automation` (teams_processor.py): run the body; any
escaping exception is consumed by the run-level handlers, the logout of
the `finally` block (a no-op that cannot fail) always runs, and the
`(success, message)` pair is returned. -/
def runChannelAutomation (env : TeamsEnv) (auth : AuthConfig)
    (teamArg channelArg savePath : String) : ChannelRunRes :=
  let b := channelBody env auth teamArg channelArg savePath
  match b.result with
  | .ok p =>
    ⟨.ok p, b.trace ++ [TEvent.logout], b.fetched, b.savedMsgs, b.processed,
      b.total, b.savedCheckpoint⟩
  | .error e =>
    ⟨.ok (channelHandler e), b.trace ++ [TEvent.logout], b.fetched, b.savedMsgs,
      b.processed, b.total, b.savedCheckpoint⟩

/-! ## Helpers for the statements, and concrete runs -/

/-- Whether an `Except` is a success. -/
def exceptOk {ε α : Type} : Except ε α → Bool
  | .ok _ => true
  | .error _ => false

/-- The sleep `TeamsLib._request` performs after attempt `i` when it
retries: the Retry-After value (default 2) on a 429, else `1 + attempt`. -/
def sleepOf (resp : Nat → TResp) (i : Nat) : Nat :=
  if (resp i).status = 429 then (resp i).retryAfter.getD 2 else 1 + i

/-- The sleeps of the first `k` (retried) attempts. -/
def sleepsUpTo (resp : Nat → TResp) (k : Nat) : List Nat :=
  (List.range k).map (sleepOf resp)

/-- An id the mailbox loop processes without an uncaught error: its fetch
succeeds, the bodies directory can be created, its body write succeeds and
its COPY succeeds.  (A failing attachment save is irrelevant: it is caught.) -/
def gmailItemSucceeds (env : GmailEnv) (id : Nat) : Prop :=
  exceptOk (env.fetchMsg id) = true ∧ env.mkdirEmailsOk = true ∧
    env.writeBody id = true ∧ env.copyOk id = true

/-- An id whose `save_email` body write fails (the fetch itself succeeds):
the error the mailbox loop does not catch. -/
def gmailBodySaveFails (env : GmailEnv) (id : Nat) : Prop :=
  exceptOk (env.fetchMsg id) = true ∧ env.mkdirEmailsOk = true ∧
    env.writeBody id = false

instance (env : GmailEnv) (id : Nat) : Decidable (gmailItemSucceeds env id) := by
  unfold gmailItemSucceeds
  infer_instance

instance (env : GmailEnv) (id : Nat) : Decidable (gmailBodySaveFails env id) := by
  unfold gmailBodySaveFails
  infer_instance

/-- The paths a successful download of one Teams attachment writes. -/
def okWrites (fs : TeamsFsEnv) (savePath : String) (att : TAttachment) : List String :=
  match downloadAttachment fs att savePath with
  | .ok ws => ws
  | .error _ => []

/-- A plain fetched e-mail without attachments. -/
def gMsgPlain : GMessage := ⟨"Betreff", []⟩

/-- A malformed embedded attachment part: named, but its payload decodes to
`None`. -/
def gPartBad : GPart := ⟨false, some "attachment", some "a.txt", none⟩

/-- A well-formed embedded attachment part. -/
def gPartGood : GPart := ⟨false, some "attachment", some "b.txt", some "data"⟩

/-- An e-mail carrying one malformed and one well-formed attachment. -/
def gMsgTwoAtt : GMessage := ⟨"Betreff", [gPartBad, gPartGood]⟩

/-- An e-mail carrying only the well-formed attachment. -/
def gMsgOneAtt : GMessage := ⟨"Betreff", [gPartGood]⟩

/-- A mailbox environment whose login fails (bad credentials). -/
def gEnvBadLogin : GmailEnv :=
  ⟨some "AUTHENTICATIONFAILED Invalid credentials", .ok [], .ok [],
    fun _ => .error "no fetch", true, true, fun _ => true, fun _ _ => true,
    fun _ => true, fun _ => true, true⟩

/-- A mailbox environment where everything succeeds except the body write of
message 2: ids 1, 2, 3 are pending (processed in the order 3, 2, 1). -/
def gEnvBodyFail : GmailEnv :=
  ⟨none, .ok ["Quelle", "Ziel"], .ok [1, 2, 3], fun _ => .ok gMsgPlain,
    true, true, fun i => i ≠ 2, fun _ _ => true, fun _ => true, fun _ => true, true⟩

/-- A mailbox environment where message 7 carries the two attachments of
`gMsgTwoAtt` and all filesystem writes succeed. -/
def gEnvTwoAtt : GmailEnv :=
  ⟨none, .ok ["Quelle", "Ziel"], .ok [7], fun _ => .ok gMsgTwoAtt,
    true, true, fun _ => true, fun _ _ => true, fun _ => true, fun _ => true, true⟩

/-- Like `gEnvTwoAtt`, but message 7 carries only the well-formed attachment. -/
def gEnvOneAtt : GmailEnv :=
  ⟨none, .ok ["Quelle", "Ziel"], .ok [7], fun _ => .ok gMsgOneAtt,
    true, true, fun _ => true, fun _ _ => true, fun _ => true, fun _ => true, true⟩

/-- MSAL answers where everything works (device flow, token granted). -/
def tAuthOk : TAuthEnv := ⟨true, true, some "TOKEN", some "TOKEN"⟩

/-- A device-code auth configuration. -/
def tAuthCfg : AuthConfig := ⟨"tenant", "client", none, true⟩

/-- A filesystem/download host where everything succeeds. -/
def tFsOk : TeamsFsEnv := ⟨fun _ => true, fun _ => true, fun _ => true, fun _ => 200⟩

/-- A plain Teams message without attachments. -/
def tMsgPlain (i : String) : TMessage := ⟨some i, "2024-01-01T00:00:00Z", none, none, []⟩

/-- An embedded Teams attachment named `report.pdf` with (valid base64)
content. -/
def tAttReport : TAttachment :=
  ⟨some "#microsoft.graph.fileAttachment", some "report.pdf", some "QUJD", none, none⟩

/-- An embedded Teams attachment named `good.pdf` with content. -/
def tAttGood : TAttachment :=
  ⟨some "#microsoft.graph.fileAttachment", some "good.pdf", some "REFU", none, none⟩

/-- A malformed embedded Teams attachment: its `contentBytes` is empty, so
`_download_attachment` raises the library's `API` error. -/
def tAttBad : TAttachment :=
  ⟨some "#microsoft.graph.fileAttachment", some "bad.pdf", none, none, none⟩

/-- Two Teams messages (ids A and B) carrying the same-named attachment. -/
def tMsgA : TMessage := ⟨some "A", "2024-01-01T00:00:00Z", none, none, [tAttReport]⟩

/-- See `tMsgA`. -/
def tMsgB : TMessage := ⟨some "B", "2024-01-02T00:00:00Z", none, none, [tAttReport]⟩

/-- A Teams message carrying one malformed and one well-formed attachment. -/
def tMsgMixed : TMessage :=
  ⟨some "M", "2024-01-03T00:00:00Z", none, none, [tAttBad, tAttGood]⟩

/-- A channel environment where everything works: the checkpoint already
holds id `a`, the channel lists ids `a` and `b`. -/
def tEnvW : TeamsEnv :=
  ⟨tAuthOk, tFsOk,
    fun _ => .error ⟨"Team not found", TErrKind.notFound, none⟩,
    fun _ _ => .error ⟨"Channel not found", TErrKind.notFound, none⟩,
    fun _ _ => .ok true, .loaded ["a"], .ok ["a", "b"],
    fun i => .ok (tMsgPlain i), true⟩

/-- The initial loop state for a checkpoint already holding id `a`. -/
def tSt0 : TLoopSt := ⟨(["a"] : List String).toFinset, 0, [], [], []⟩

/-- The checkpoint set `tEnvW`'s run persists. -/
def tCpW : Finset String :=
  (channelLoop tEnvW "p" ["a", "b"] tSt0).processedIds

/-- The response sequence of the spec's rate-limit scenario: 429 with
Retry-After 2, twice, then 200. -/
def respTwice429 (i : Nat) : TResp :=
  if i < 2 then ⟨429, some 2⟩ else ⟨200, none⟩

/-- A filesystem where exactly the body write of message `b` fails. -/
def tFsFailB : TeamsFsEnv :=
  ⟨fun _ => true, fun p => p ≠ "p/E-Mails/2024-01-01T00-00-00Z_b.txt",
    fun _ => true, fun _ => 200⟩

/-- A channel environment listing ids `b` and `c`, where saving the body of
`b` fails and everything else succeeds. -/
def tEnvFailB : TeamsEnv :=
  ⟨tAuthOk, tFsFailB,
    fun _ => .error ⟨"Team not found", TErrKind.notFound, none⟩,
    fun _ _ => .error ⟨"Channel not found", TErrKind.notFound, none⟩,
    fun _ _ => .ok true, .loaded [], .ok ["b", "c"],
    fun i => .ok (tMsgPlain i), true⟩

/-! ## Lemmas about the sanitizer -/

theorem joinSpace_cons_cons (w x : List Char) (ws : List (List Char)) :
    joinSpace (w :: x :: ws) = w ++ ' ' :: joinSpace (x :: ws) := rfl

theorem splitWsAux_nil_cons (a : Char) (as : List Char) :
    splitWsAux [] (a :: as) = [(a :: as).reverse] := rfl

theorem splitWsAux_space (rest cur : List Char) :
    splitWsAux (' ' :: rest) cur =
      if cur = [] then splitWsAux rest [] else cur.reverse :: splitWsAux rest [] := by
  simp [splitWsAux]

theorem splitWsAux_char {b : Char} (rest cur : List Char) (hb : b ≠ ' ') :
    splitWsAux (b :: rest) cur = splitWsAux rest (b :: cur) := by
  simp [splitWsAux, hb]

theorem mem_joinSpace_cons {c : Char} {x : List Char} {xs : List (List Char)}
    (h : c ∈ joinSpace (x :: xs)) : c ∈ x ∨ c = ' ' ∨ c ∈ joinSpace xs := by
  cases xs with
  | nil => exact Or.inl h
  | cons y ys =>
    rw [joinSpace_cons_cons] at h
    rcases List.mem_append.mp h with h | h
    · exact Or.inl h
    · rcases List.mem_cons.mp h with h | h
      · exact Or.inr (Or.inl h)
      · exact Or.inr (Or.inr h)

theorem mem_joinSpace_splitWsAux :
    ∀ (l cur : List Char) (c : Char), c ∈ joinSpace (splitWsAux l cur) →
      c ∈ l ∨ c ∈ cur ∨ c = ' '
  | [], cur, c => by
    cases cur with
    | nil => intro h; simp [splitWsAux, joinSpace] at h
    | cons a as =>
      intro h
      rw [splitWsAux_nil_cons] at h
      exact Or.inr (Or.inl (List.mem_reverse.mp h))
  | b :: rest, cur, c => by
    intro h
    by_cases hb : b = ' '
    · subst hb
      rw [splitWsAux_space] at h
      by_cases hcur : cur = []
      · rw [if_pos hcur] at h
        rcases mem_joinSpace_splitWsAux rest [] c h with h | h | h
        · exact Or.inl (List.mem_cons_of_mem _ h)
        · simp at h
        · exact Or.inr (Or.inr h)
      · rw [if_neg hcur] at h
        rcases mem_joinSpace_cons h with h | h | h
        · exact Or.inr (Or.inl (List.mem_reverse.mp h))
        · exact Or.inr (Or.inr h)
        · rcases mem_joinSpace_splitWsAux rest [] c h with h | h | h
          · exact Or.inl (List.mem_cons_of_mem _ h)
          · simp at h
          · exact Or.inr (Or.inr h)
    · rw [splitWsAux_char rest cur hb] at h
      rcases mem_joinSpace_splitWsAux rest (b :: cur) c h with h | h | h
      · exact Or.inl (List.mem_cons_of_mem _ h)
      · rcases List.mem_cons.mp h with h | h
        · exact Or.inl (h ▸ List.mem_cons_self _ _)
        · exact Or.inr (Or.inl h)
      · exact Or.inr (Or.inr h)

theorem joinSpace_splitWsAux_length :
    ∀ (l cur : List Char), (joinSpace (splitWsAux l cur)).length ≤ l.length + cur.length
  | [], cur => by
    cases cur with
    | nil => simp [splitWsAux, joinSpace]
    | cons a as => rw [splitWsAux_nil_cons]; simp [joinSpace]
  | b :: rest, cur => by
    by_cases hb : b = ' '
    · subst hb
      rw [splitWsAux_space]
      by_cases hcur : cur = []
      · rw [if_pos hcur]
        have := joinSpace_splitWsAux_length rest []
        subst hcur
        simp only [List.length_cons, List.length_nil] at this ⊢
        omega
      · rw [if_neg hcur]
        rcases hs : splitWsAux rest [] with _ | ⟨w, ws⟩
        · simp only [joinSpace, List.length_reverse, List.length_cons]
          omega
        · rw [joinSpace_cons_cons]
          have := joinSpace_splitWsAux_length rest []
          rw [hs] at this
          simp only [List.length_append, List.length_cons, List.length_reverse,
            List.length_nil, Nat.add_zero] at this ⊢
          omega
    · rw [splitWsAux_char rest cur hb]
      have := joinSpace_splitWsAux_length rest (b :: cur)
      simp only [List.length_cons] at this ⊢
      omega

theorem mem_of_mem_stripSpaces {c : Char} {l : List Char} (h : c ∈ stripSpaces l) :
    c ∈ l := by
  unfold stripSpaces at h
  rw [List.mem_reverse] at h
  have h1 := (List.dropWhile_sublist (l := (l.dropWhile (fun c => c = ' ')).reverse)
    (p := fun c => c = ' ')).mem h
  rw [List.mem_reverse] at h1
  exact (List.dropWhile_sublist (l := l) (p := fun c => c = ' ')).mem h1

theorem stripSpaces_length_le (l : List Char) : (stripSpaces l).length ≤ l.length := by
  unfold stripSpaces
  calc ((l.dropWhile (fun c => c = ' ')).reverse.dropWhile (fun c => c = ' ')).reverse.length
      = ((l.dropWhile (fun c => c = ' ')).reverse.dropWhile (fun c => c = ' ')).length := by
        simp
    _ ≤ (l.dropWhile (fun c => c = ' ')).reverse.length :=
        (List.dropWhile_sublist _).length_le
    _ = (l.dropWhile (fun c => c = ' ')).length := by simp
    _ ≤ l.length := (List.dropWhile_sublist _).length_le

theorem mem_dropWhile_of_ne {c : Char} :
    ∀ {l : List Char}, c ∈ l → c ≠ ' ' → c ∈ l.dropWhile (fun x => x = ' ')
  | a :: as, h, hc => by
    by_cases ha : a = ' '
    · rw [List.dropWhile_cons, if_pos (by simp [ha])]
      rcases List.mem_cons.mp h with h | h
      · exact absurd (h.trans ha) hc
      · exact mem_dropWhile_of_ne h hc
    · rwa [List.dropWhile_cons, if_neg (by simp [ha])]

theorem mem_stripSpaces_of_ne {c : Char} {l : List Char} (h : c ∈ l) (hc : c ≠ ' ') :
    c ∈ stripSpaces l := by
  unfold stripSpaces
  rw [List.mem_reverse]
  exact mem_dropWhile_of_ne (List.mem_reverse.mpr (mem_dropWhile_of_ne h hc)) hc

theorem dropWhile_head_not {l : List Char} :
    l.dropWhile (fun x => x = ' ') = [] ∨
      ∃ x xs, l.dropWhile (fun x => x = ' ') = x :: xs ∧ x ≠ ' ' := by
  induction l with
  | nil => exact Or.inl rfl
  | cons a as ih =>
    by_cases ha : a = ' '
    · rwa [List.dropWhile_cons, if_pos (by simp [ha])]
    · rw [List.dropWhile_cons, if_neg (by simp [ha])]
      exact Or.inr ⟨a, as, rfl, ha⟩

theorem stripSpaces_head_not {l : List Char} (h : stripSpaces l ≠ []) :
    ∃ x xs, stripSpaces l = x :: xs ∧ x ≠ ' ' := by
  have hpre : (stripSpaces l) <+: l.dropWhile (fun x => x = ' ') := by
    unfold stripSpaces
    have h1 := List.reverse_prefix.mpr
      (List.dropWhile_suffix (l := (l.dropWhile (fun c => c = ' ')).reverse)
        (p := fun c => c = ' '))
    simpa using h1
  rcases hpre with ⟨t, ht⟩
  rcases hd : stripSpaces l with _ | ⟨x, xs⟩
  · exact absurd hd h
  · refine ⟨x, xs, rfl, ?_⟩
    rcases dropWhile_head_not (l := l) with h1 | ⟨y, ys, h1, hy⟩
    · rw [← ht, hd] at h1; simp at h1
    · rw [← ht, hd] at h1
      simpa using (List.cons.injEq _ _ _ _ ▸ h1).1 ▸ hy

theorem splitWsAux_first_chunk :
    ∀ (l cur : List Char), cur ≠ [] → (∀ c ∈ cur, c ≠ ' ') →
      ∃ w ws, splitWsAux l cur = w :: ws ∧ w ≠ [] ∧ ∀ c ∈ w, c ≠ ' '
  | [], cur, hc, hall => by
    refine ⟨cur.reverse, [], ?_, by simpa using hc, by simpa using hall⟩
    cases cur with
    | nil => exact absurd rfl hc
    | cons a as => rfl
  | b :: rest, cur, hc, hall => by
    by_cases hb : b = ' '
    · subst hb
      rw [splitWsAux_space, if_neg hc]
      exact ⟨cur.reverse, splitWsAux rest [], rfl, by simpa using hc, by simpa using hall⟩
    · rw [splitWsAux_char rest cur hb]
      exact splitWsAux_first_chunk rest (b :: cur) (by simp)
        (by intro c hcm; rcases List.mem_cons.mp hcm with h | h
            · exact h ▸ hb
            · exact hall c h)

theorem joinSpace_cons_ne_nil {w : List Char} {ws : List (List Char)} (h : w ≠ []) :
    joinSpace (w :: ws) ≠ [] := by
  cases ws with
  | nil => simpa [joinSpace] using h
  | cons x xs =>
    rw [joinSpace_cons_cons]
    simp [h]

theorem mem_joinSpace_left {c : Char} {w : List Char} {ws : List (List Char)}
    (h : c ∈ w) : c ∈ joinSpace (w :: ws) := by
  cases ws with
  | nil => exact h
  | cons x xs => rw [joinSpace_cons_cons]; exact List.mem_append_left _ h

theorem sanitizeCore_chars (l : List Char) :
    ∀ c ∈ sanitizeCore l, allowedChar c = true := by
  intro c hc
  unfold sanitizeCore at hc
  split at hc
  · exact (by decide : ∀ x ∈ "untitled_file".data, allowedChar x = true) c hc
  · have h1 := mem_of_mem_stripSpaces hc
    rcases mem_joinSpace_splitWsAux _ _ _ h1 with h | h | h
    · have h2 := List.mem_of_mem_take h
      have h3 := mem_of_mem_stripSpaces h2
      exact (List.mem_filter.mp h3).2
    · simp at h
    · subst h; decide

theorem sanitizeCore_length (l : List Char) : (sanitizeCore l).length ≤ 200 := by
  unfold sanitizeCore
  split
  · decide
  · calc (stripSpaces (joinSpace (splitWsAux
          ((stripSpaces (l.filter allowedChar)).take 200) []))).length
        ≤ (joinSpace (splitWsAux ((stripSpaces (l.filter allowedChar)).take 200) [])).length :=
          stripSpaces_length_le _
      _ ≤ ((stripSpaces (l.filter allowedChar)).take 200).length + 0 :=
          joinSpace_splitWsAux_length _ _
      _ ≤ 200 := by simp

theorem sanitizeCore_ne_nil (l : List Char) : sanitizeCore l ≠ [] := by
  unfold sanitizeCore
  split
  · decide
  · rename_i hne
    rcases stripSpaces_head_not hne with ⟨x, xs, hx, hxs⟩
    rw [hx]
    have htake : (x :: xs).take 200 = x :: xs.take 199 := rfl
    rw [htake]
    have hsplit : splitWsAux (x :: xs.take 199) [] = splitWsAux (xs.take 199) [x] := by
      simp [splitWsAux, hxs]
    rw [hsplit]
    rcases splitWsAux_first_chunk (xs.take 199) [x] (by simp)
        (by intro c hcm; simpa using (List.mem_singleton.mp hcm) ▸ hxs) with
      ⟨w, ws, hw, hwne, hwall⟩
    rw [hw]
    rcases List.exists_mem_of_ne_nil w hwne with ⟨y, hy⟩
    have hyj : y ∈ joinSpace (w :: ws) := mem_joinSpace_left hy
    have hmem : y ∈ stripSpaces (joinSpace (w :: ws)) :=
      mem_stripSpaces_of_ne hyj (hwall y hy)
    intro hnil
    rw [hnil] at hmem
    simp at hmem

/-! ## Lemmas about decimal ids and the collision-free filenames -/

theorem digitChar_isDigit {d : Nat} (h : d < 10) : (Nat.digitChar d).isDigit = true := by
  interval_cases d <;> decide

theorem digitChar_toNat {d : Nat} (h : d < 10) : (Nat.digitChar d).toNat = 48 + d := by
  interval_cases d <;> decide

theorem natDigits_isDigit (n : Nat) : ∀ c ∈ natDigits n, c.isDigit = true := by
  induction n using Nat.strong_induction_on with
  | _ n ih =>
    intro c hc
    rw [natDigits] at hc
    split at hc
    · rename_i h
      rw [List.mem_singleton.mp hc]
      exact digitChar_isDigit h
    · rename_i h
      rcases List.mem_append.mp hc with hc | hc
      · exact ih (n / 10) (Nat.div_lt_self (by omega) (by omega)) c hc
      · rw [List.mem_singleton.mp hc]
        exact digitChar_isDigit (Nat.mod_lt _ (by omega))

theorem natVal_append_digit (l : List Char) (c : Char) :
    natVal (l ++ [c]) = natVal l * 10 + (c.toNat - 48) := by
  simp [natVal, List.foldl_append]

theorem natVal_natDigits (n : Nat) : natVal (natDigits n) = n := by
  induction n using Nat.strong_induction_on with
  | _ n ih =>
    rw [natDigits]
    split
    · rename_i h
      simp [natVal, digitChar_toNat h]
    · rename_i h
      rw [natVal_append_digit, ih (n / 10) (Nat.div_lt_self (by omega) (by omega)),
        digitChar_toNat (Nat.mod_lt _ (by omega))]
      omega

theorem natDigits_inj {a b : Nat} (h : natDigits a = natDigits b) : a = b := by
  have := natVal_natDigits a
  rw [h, natVal_natDigits] at this
  omega

theorem natDigits_no_underscore (n : Nat) : ∀ c ∈ natDigits n, c ≠ '_' := by
  intro c hc he
  have := natDigits_isDigit n c hc
  rw [he] at this
  exact absurd this (by decide)

theorem append_underscore_inj :
    ∀ (a c b d : List Char), (∀ x ∈ a, x ≠ '_') → (∀ x ∈ c, x ≠ '_') →
      a ++ '_' :: b = c ++ '_' :: d → a = c ∧ b = d
  | [], [], b, d, _, _, h => by simpa using h
  | [], y :: ys, b, d, _, hc, h => by
    simp only [List.nil_append, List.cons_append, List.cons.injEq] at h
    exact absurd h.1.symm (hc y (List.mem_cons_self _ _))
  | x :: xs, [], b, d, ha, _, h => by
    simp only [List.nil_append, List.cons_append, List.cons.injEq] at h
    exact absurd h.1 (ha x (List.mem_cons_self _ _))
  | x :: xs, y :: ys, b, d, ha, hc, h => by
    simp only [List.cons_append, List.cons.injEq] at h
    obtain ⟨hxy, ht⟩ := h
    obtain ⟨h1, h2⟩ := append_underscore_inj xs ys b d
      (fun z hz => ha z (List.mem_cons_of_mem _ hz))
      (fun z hz => hc z (List.mem_cons_of_mem _ hz)) ht
    exact ⟨by rw [hxy, h1], h2⟩

theorem digits_underscore_tail_inj {m1 m2 : Nat} {t1 t2 : List Char}
    (h : natDigits m1 ++ '_' :: t1 = natDigits m2 ++ '_' :: t2) :
    m1 = m2 ∧ t1 = t2 := by
  obtain ⟨h1, h2⟩ := append_underscore_inj _ _ _ _
    (natDigits_no_underscore m1) (natDigits_no_underscore m2) h
  exact ⟨natDigits_inj h1, h2⟩

theorem gmailAttachmentName_inj (f : List Char) (m1 i1 m2 i2 : Nat)
    (hne : (m1, i1) ≠ (m2, i2)) :
    gmailAttachmentName f m1 i1 ≠ gmailAttachmentName f m2 i2 := by
  intro h
  unfold gmailAttachmentName at h
  apply hne
  split at h
  · simp only [List.append_assoc, List.cons_append] at h
    have h1 := List.append_cancel_left h
    injection h1 with _ h2
    obtain ⟨hm, ht⟩ := digits_underscore_tail_inj h2
    have hi := natDigits_inj ((List.append_inj' ht rfl).1)
    rw [hm, hi]
  · simp only [List.append_assoc, List.cons_append] at h
    have h1 := List.append_cancel_left h
    injection h1 with _ h2
    obtain ⟨hm, ht⟩ := digits_underscore_tail_inj h2
    rw [hm, natDigits_inj ht]

theorem string_data_append (s t : String) : (s ++ t).data = s.data ++ t.data := rfl

theorem string_data_mk (l : List Char) : (String.mk l).data = l := rfl

theorem gmailEmailFilename_inj (subject : String) (m1 m2 : Nat) (hne : m1 ≠ m2) :
    gmailEmailFilename subject m1 ≠ gmailEmailFilename subject m2 := by
  intro h
  apply hne
  have hd := congrArg String.data h
  simp only [gmailEmailFilename, string_data_append, natDecimal, string_data_mk,
    List.append_assoc] at hd
  exact natDigits_inj
    ((List.append_inj' (List.append_cancel_left (List.append_cancel_left hd)) rfl).1)

/-! ## Lemmas about the graph retry loop -/

theorem retriable_iff (r : TResp) :
    retriable r = true ↔ r.status = 429 ∨ (500 ≤ r.status ∧ r.status < 600) := by
  simp [retriable, Bool.or_eq_true, Bool.and_eq_true, beq_iff_eq, decide_eq_true_eq]

theorem range_succ_map_shift {α : Type} (g : Nat → α) (n : Nat) :
    (List.range (n + 1)).map g = g 0 :: (List.range n).map (fun j => g (j + 1)) := by
  rw [List.range_succ_eq_map, List.map_cons, List.map_map]
  rfl

theorem sleeps_shift (resp : Nat → TResp) (attempt fuel : Nat) (sleeps : List Nat)
    (x : Nat) (hx : x = sleepOf resp attempt) :
    sleeps ++ [x] ++ (List.range fuel).map (fun j => sleepOf resp (attempt + 1 + j)) =
      sleeps ++ (List.range (fuel + 1)).map (fun j => sleepOf resp (attempt + j)) := by
  rw [range_succ_map_shift (fun j => sleepOf resp (attempt + j)) fuel]
  rw [List.append_assoc, List.singleton_append]
  simp only [Nat.add_zero]
  rw [hx]
  congr 1
  congr 1
  apply List.map_congr_left
  intro j _
  congr 1
  omega

theorem requestGo_all (resp : Nat → TResp) :
    ∀ (fuel attempt : Nat) (sleeps : List Nat),
      (∀ j, j < fuel → retriable (resp (attempt + j)) = true) →
      requestGo resp attempt fuel sleeps =
        (sleeps ++ (List.range fuel).map (fun j => sleepOf resp (attempt + j)),
          .error ⟨"Exceeded retries for Graph API call", TErrKind.rateLimit, none⟩)
  | 0, attempt, sleeps, _ => by simp [requestGo]
  | fuel + 1, attempt, sleeps, h => by
    have h0 : retriable (resp attempt) = true := by
      have := h 0 (by omega); simpa using this
    have hshift : ∀ j, j < fuel → retriable (resp (attempt + 1 + j)) = true := by
      intro j hj
      have := h (j + 1) (by omega)
      rw [show attempt + (j + 1) = attempt + 1 + j by omega] at this
      exact this
    rw [retriable_iff] at h0
    rcases h0 with h429 | h5xx
    · rw [requestGo, if_pos h429,
        requestGo_all resp fuel (attempt + 1) (sleeps ++ [(resp attempt).retryAfter.getD 2])
          hshift]
      rw [sleeps_shift resp attempt fuel sleeps _ (by simp [sleepOf, h429])]
    · have hne : ¬ (resp attempt).status = 429 := by omega
      rw [requestGo, if_neg hne, if_pos h5xx,
        requestGo_all resp fuel (attempt + 1) (sleeps ++ [1 + attempt]) hshift]
      rw [sleeps_shift resp attempt fuel sleeps _ (by simp [sleepOf, hne])]

theorem requestGo_stop (resp : Nat → TResp) :
    ∀ (k fuel attempt : Nat) (sleeps : List Nat), k < fuel →
      (∀ j, j < k → retriable (resp (attempt + j)) = true) →
      retriable (resp (attempt + k)) = false →
      requestGo resp attempt fuel sleeps =
        (sleeps ++ (List.range k).map (fun j => sleepOf resp (attempt + j)),
          if respOk (resp (attempt + k)) then .ok (resp (attempt + k))
          else .error ⟨"Graph API error " ++ natDecimal (resp (attempt + k)).status,
            TErrKind.api, some (resp (attempt + k)).status⟩)
  | 0, fuel, attempt, sleeps, hk, _, hstop => by
    rcases fuel with _ | f
    · omega
    · simp only [Nat.add_zero] at hstop ⊢
      have hn : ¬ ((resp attempt).status = 429 ∨
          (500 ≤ (resp attempt).status ∧ (resp attempt).status < 600)) := by
        rw [← retriable_iff]
        simp [hstop]
      rw [requestGo, if_neg (fun hc => hn (Or.inl hc)), if_neg (fun hc => hn (Or.inr hc))]
      by_cases hok : respOk (resp attempt) = true
      · simp [hok]
      · simp [hok]
  | k + 1, fuel, attempt, sleeps, hk, h, hstop => by
    rcases fuel with _ | f
    · omega
    · have h0 : retriable (resp attempt) = true := by
        have := h 0 (by omega); simpa using this
      have hshift : ∀ j, j < k → retriable (resp (attempt + 1 + j)) = true := by
        intro j hj
        have := h (j + 1) (by omega)
        rw [show attempt + (j + 1) = attempt + 1 + j by omega] at this
        exact this
      have hstop' : retriable (resp (attempt + 1 + k)) = false := by
        rw [show attempt + 1 + k = attempt + (k + 1) by omega]
        exact hstop
      have hfix : attempt + 1 + k = attempt + (k + 1) := by omega
      rw [retriable_iff] at h0
      rcases h0 with h429 | h5xx
      · rw [requestGo, if_pos h429,
          requestGo_stop resp k f (attempt + 1)
            (sleeps ++ [(resp attempt).retryAfter.getD 2]) (by omega) hshift hstop']
        rw [sleeps_shift resp attempt k sleeps _ (by simp [sleepOf, h429]), hfix]
      · have hne : ¬ (resp attempt).status = 429 := by omega
        rw [requestGo, if_neg hne, if_pos h5xx,
          requestGo_stop resp k f (attempt + 1) (sleeps ++ [1 + attempt]) (by omega)
            hshift hstop']
        rw [sleeps_shift resp attempt k sleeps _ (by simp [sleepOf, hne]), hfix]

/-- C6: in the graph adapter, every request hitting 429 sleeps the
service-provided Retry-After (2 when the header is absent) and retries,
every 5xx retries with the linearly growing back-off `1 + attempt`, both up
to the bounded 5 attempts after which the call fails with the
`RATE_LIMIT` error; the first response that is neither 429 nor a 5xx
either returns (when ok, status < 400) or fails at once with the `API`
error carrying the HTTP status. -/
theorem c6_request_retry_backoff (resp : Nat → TResp) :
    ((∀ i, i < 5 → retriable (resp i) = true) →
      teamsRequest resp = (sleepsUpTo resp 5,
        .error ⟨"Exceeded retries for Graph API call", TErrKind.rateLimit, none⟩)) ∧
    (∀ k, k < 5 → (∀ i, i < k → retriable (resp i) = true) →
      retriable (resp k) = false →
      teamsRequest resp = (sleepsUpTo resp k,
        if respOk (resp k) then .ok (resp k)
        else .error ⟨"Graph API error " ++ natDecimal (resp k).status,
          TErrKind.api, some (resp k).status⟩)) := by
  constructor
  · intro h
    have := requestGo_all resp 5 0 []
      (by intro j hj; have := h j hj; simpa using this)
    simpa [teamsRequest, sleepsUpTo] using this
  · intro k hk hpre hstop
    have := requestGo_stop resp k 5 0 [] hk
      (by intro j hj; have := hpre j hj; simpa using this) (by simpa using hstop)
    simpa [teamsRequest, sleepsUpTo] using this

/-! ## Lemmas about the channel loop -/

theorem channelAfterAtt_spec (env : TeamsEnv) (savePath : String) (msg : TMessage)
    (st2 : TLoopSt) (mid : String) :
    ((channelAfterAtt env savePath msg st2 mid).fetched = st2.fetched ∧
     (channelAfterAtt env savePath msg st2 mid).processedIds = st2.processedIds ∧
     (channelAfterAtt env savePath msg st2 mid).processed = st2.processed ∧
     (channelAfterAtt env savePath msg st2 mid).savedMsgs = st2.savedMsgs) ∨
    ((channelAfterAtt env savePath msg st2 mid).fetched = st2.fetched ∧
     (channelAfterAtt env savePath msg st2 mid).processedIds = insert mid st2.processedIds ∧
     (channelAfterAtt env savePath msg st2 mid).processed = st2.processed + 1 ∧
     (channelAfterAtt env savePath msg st2 mid).savedMsgs = st2.savedMsgs ++ [mid]) := by
  unfold channelAfterAtt
  split
  · exact Or.inl ⟨rfl, rfl, rfl, rfl⟩
  · exact Or.inr ⟨rfl, rfl, rfl, rfl⟩

theorem channelItem_spec (env : TeamsEnv) (savePath : String) (msg : TMessage)
    (st1 : TLoopSt) (mid : String) :
    ((channelItem env savePath msg st1 mid).fetched = st1.fetched ∧
     (channelItem env savePath msg st1 mid).processedIds = st1.processedIds ∧
     (channelItem env savePath msg st1 mid).processed = st1.processed ∧
     (channelItem env savePath msg st1 mid).savedMsgs = st1.savedMsgs) ∨
    ((channelItem env savePath msg st1 mid).fetched = st1.fetched ∧
     (channelItem env savePath msg st1 mid).processedIds = insert mid st1.processedIds ∧
     (channelItem env savePath msg st1 mid).processed = st1.processed + 1 ∧
     (channelItem env savePath msg st1 mid).savedMsgs = st1.savedMsgs ++ [mid]) := by
  unfold channelItem
  split
  · exact Or.inl ⟨rfl, rfl, rfl, rfl⟩
  all_goals
    rcases channelAfterAtt_spec env savePath msg _ mid with ⟨h1, h2, h3, h4⟩ | ⟨h1, h2, h3, h4⟩
  · exact Or.inl ⟨h1, h2, h3, h4⟩
  · exact Or.inr ⟨h1, h2, h3, h4⟩

theorem channelStep_skip (env : TeamsEnv) (savePath : String) (st : TLoopSt)
    (mid : String) (h : mid ∈ st.processedIds) : channelStep env savePath st mid = st := by
  simp [channelStep, h]

theorem channelStep_spec (env : TeamsEnv) (savePath : String) (st : TLoopSt)
    (mid : String) (h : mid ∉ st.processedIds) :
    (channelStep env savePath st mid).fetched = st.fetched ++ [mid] ∧
    (((channelStep env savePath st mid).processedIds = st.processedIds ∧
      (channelStep env savePath st mid).processed = st.processed ∧
      (channelStep env savePath st mid).savedMsgs = st.savedMsgs) ∨
     ((channelStep env savePath st mid).processedIds = insert mid st.processedIds ∧
      (channelStep env savePath st mid).processed = st.processed + 1 ∧
      (channelStep env savePath st mid).savedMsgs = st.savedMsgs ++ [mid])) := by
  unfold channelStep
  rw [if_neg h]
  split
  · exact ⟨rfl, Or.inl ⟨rfl, rfl, rfl⟩⟩
  · rcases channelItem_spec env savePath _ { st with fetched := st.fetched ++ [mid] } mid with
      ⟨h1, h2, h3, h4⟩ | ⟨h1, h2, h3, h4⟩
    · exact ⟨h1, Or.inl ⟨h2, h3, h4⟩⟩
    · exact ⟨h1, Or.inr ⟨h2, h3, h4⟩⟩

theorem channelStep_facts (env : TeamsEnv) (savePath : String) (st : TLoopSt)
    (mid : String) :
    st.processedIds ⊆ (channelStep env savePath st mid).processedIds ∧
    (channelStep env savePath st mid).processedIds.card + st.processed =
      st.processedIds.card + (channelStep env savePath st mid).processed ∧
    (channelStep env savePath st mid).processed ≤ st.processed + 1 ∧
    ((channelStep env savePath st mid).fetched = st.fetched ∨
      ((channelStep env savePath st mid).fetched = st.fetched ++ [mid] ∧
        mid ∉ st.processedIds)) ∧
    ((channelStep env savePath st mid).savedMsgs = st.savedMsgs ∨
      ((channelStep env savePath st mid).savedMsgs = st.savedMsgs ++ [mid] ∧
        mid ∉ st.processedIds)) := by
  by_cases h : mid ∈ st.processedIds
  · rw [channelStep_skip env savePath st mid h]
    exact ⟨Finset.Subset.refl _, by omega, by omega, Or.inl rfl, Or.inl rfl⟩
  · obtain ⟨hf, hc⟩ := channelStep_spec env savePath st mid h
    rcases hc with ⟨h1, h2, h3⟩ | ⟨h1, h2, h3⟩
    · exact ⟨h1 ▸ Finset.Subset.refl _, by rw [h1, h2], by omega,
        Or.inr ⟨hf, h⟩, Or.inl h3⟩
    · refine ⟨?_, ?_, by omega, Or.inr ⟨hf, h⟩, Or.inr ⟨h3, h⟩⟩
      · rw [h1]; exact Finset.subset_insert _ _
      · rw [h1, h2, Finset.card_insert_of_not_mem h]
        omega

theorem channelLoop_cons (env : TeamsEnv) (savePath : String) (mid : String)
    (rest : List String) (st : TLoopSt) :
    channelLoop env savePath (mid :: rest) st =
      channelLoop env savePath rest (channelStep env savePath st mid) := rfl

theorem channelLoop_spec (env : TeamsEnv) (savePath : String) :
    ∀ (mids : List String) (st : TLoopSt),
      st.processedIds ⊆ (channelLoop env savePath mids st).processedIds ∧
      (channelLoop env savePath mids st).processedIds.card + st.processed =
        st.processedIds.card + (channelLoop env savePath mids st).processed ∧
      (channelLoop env savePath mids st).processed ≤ st.processed + mids.length ∧
      (∀ x, x ∈ (channelLoop env savePath mids st).fetched →
        x ∈ st.fetched ∨ x ∉ st.processedIds) ∧
      (∀ x, x ∈ (channelLoop env savePath mids st).savedMsgs →
        x ∈ st.savedMsgs ∨ x ∉ st.processedIds) ∧
      (∀ x, x ∈ st.fetched → x ∈ (channelLoop env savePath mids st).fetched)
  | [], st =>
    ⟨Finset.Subset.refl _, rfl, Nat.le_add_right _ _,
      fun _ hx => Or.inl hx, fun _ hx => Or.inl hx, fun _ hx => hx⟩
  | mid :: rest, st => by
    obtain ⟨s1, s2, s3, s4, s5⟩ := channelStep_facts env savePath st mid
    obtain ⟨i1, i2, i3, i4, i5, i6⟩ :=
      channelLoop_spec env savePath rest (channelStep env savePath st mid)
    rw [channelLoop_cons]
    refine ⟨s1.trans i1, by omega, by simp only [List.length_cons]; omega, ?_, ?_, ?_⟩
    · intro x hx
      rcases i4 x hx with hx1 | hx1
      · rcases s4 with hs | ⟨hs, hmid⟩
        · rw [hs] at hx1; exact Or.inl hx1
        · rw [hs] at hx1
          rcases List.mem_append.mp hx1 with hx2 | hx2
          · exact Or.inl hx2
          · exact Or.inr ((List.mem_singleton.mp hx2) ▸ hmid)
      · exact Or.inr (fun hc => hx1 (s1 hc))
    · intro x hx
      rcases i5 x hx with hx1 | hx1
      · rcases s5 with hs | ⟨hs, hmid⟩
        · rw [hs] at hx1; exact Or.inl hx1
        · rw [hs] at hx1
          rcases List.mem_append.mp hx1 with hx2 | hx2
          · exact Or.inl hx2
          · exact Or.inr ((List.mem_singleton.mp hx2) ▸ hmid)
      · exact Or.inr (fun hc => hx1 (s1 hc))
    · intro x hx
      apply i6
      rcases s4 with hs | ⟨hs, _⟩
      · rw [hs]; exact hx
      · rw [hs]; exact List.mem_append_left _ hx

theorem channelLoop_mem_fetched (env : TeamsEnv) (savePath : String) :
    ∀ (mids : List String) (st : TLoopSt) (mid : String), mid ∈ mids →
      mid ∈ st.processedIds ∨ mid ∈ (channelLoop env savePath mids st).fetched
  | mid' :: rest, st, mid, hm => by
    have hmono := (channelLoop_spec env savePath rest (channelStep env savePath st mid')).2.2.2.2.2
    rcases List.mem_cons.mp hm with he | ht
    · subst he
      by_cases hin : mid ∈ st.processedIds
      · exact Or.inl hin
      · right
        rw [channelLoop_cons]
        apply hmono
        rw [(channelStep_spec env savePath st mid hin).1]
        exact List.mem_append_right _ (List.mem_singleton.mpr rfl)
    · rcases channelLoop_mem_fetched env savePath rest (channelStep env savePath st mid')
        mid ht with hin | hin
      · by_cases hin0 : mid ∈ st.processedIds
        · exact Or.inl hin0
        · by_cases hmid : mid' ∈ st.processedIds
          · rw [channelStep_skip env savePath st mid' hmid] at hin
            exact absurd hin hin0
          · obtain ⟨hf, hc⟩ := channelStep_spec env savePath st mid' hmid
            rcases hc with ⟨h1, _, _⟩ | ⟨h1, _, _⟩
            · rw [h1] at hin; exact absurd hin hin0
            · rw [h1] at hin
              rcases Finset.mem_insert.mp hin with he | he
              · subst he
                right
                rw [channelLoop_cons]
                apply hmono
                rw [hf]
                exact List.mem_append_right _ (List.mem_singleton.mpr rfl)
              · exact absurd he hin0
      · exact Or.inr hin

/-! ## Lemmas about the channel orchestrator -/

theorem runChannel_projections (env : TeamsEnv) (auth : AuthConfig)
    (targ carg savePath : String) :
    (runChannelAutomation env auth targ carg savePath).savedCheckpoint =
      (channelBody env auth targ carg savePath).savedCheckpoint ∧
    (runChannelAutomation env auth targ carg savePath).fetched =
      (channelBody env auth targ carg savePath).fetched ∧
    (runChannelAutomation env auth targ carg savePath).savedMsgs =
      (channelBody env auth targ carg savePath).savedMsgs ∧
    (runChannelAutomation env auth targ carg savePath).processed =
      (channelBody env auth targ carg savePath).processed ∧
    (runChannelAutomation env auth targ carg savePath).total =
      (channelBody env auth targ carg savePath).total ∧
    (runChannelAutomation env auth targ carg savePath).trace =
      (channelBody env auth targ carg savePath).trace ++ [TEvent.logout] := by
  rcases hr : (channelBody env auth targ carg savePath).result with p | e <;>
    simp [runChannelAutomation, hr]

theorem channelBody_success (env : TeamsEnv) (auth : AuthConfig)
    (targ carg savePath : String) (cp : Finset String)
    (h : (channelBody env auth targ carg savePath).savedCheckpoint = some cp) :
    ∃ cpIds mids,
      loadCheckpointIds env.checkpointFile = .ok cpIds ∧
      env.listResult = .ok mids ∧
      cp = (channelLoop env savePath mids ⟨cpIds.toFinset, 0, [], [], []⟩).processedIds ∧
      (channelBody env auth targ carg savePath).fetched =
        (channelLoop env savePath mids ⟨cpIds.toFinset, 0, [], [], []⟩).fetched ∧
      (channelBody env auth targ carg savePath).savedMsgs =
        (channelLoop env savePath mids ⟨cpIds.toFinset, 0, [], [], []⟩).savedMsgs ∧
      (channelBody env auth targ carg savePath).processed =
        (channelLoop env savePath mids ⟨cpIds.toFinset, 0, [], [], []⟩).processed ∧
      (channelBody env auth targ carg savePath).total = mids.length := by
  unfold channelBody at h ⊢
  rcases h1 : (teamsLogin env.auth auth none).2.1 with e1 | u <;> simp only [h1] at h ⊢
  · simp at h
  rcases h2 : (resolveTeam env targ).2 with e2 | teamId <;> simp only [h2] at h ⊢
  · simp at h
  rcases h3 : (resolveChannel env teamId carg).2 with e3 | channelId <;>
    simp only [h3] at h ⊢
  · simp at h
  rcases h4 : env.channelExistsResult teamId channelId with e4 | ex <;>
    simp only [h4] at h ⊢
  · simp at h
  rcases ex with _ | _
  · rw [if_pos (by simp)] at h
    simp at h
  · rw [if_neg (by simp)] at h ⊢
    rcases h5 : loadCheckpointIds env.checkpointFile with e5 | cpIds <;>
      simp only [h5] at h ⊢
    · simp at h
    rcases h6 : env.listResult with e6 | mids <;> simp only [h6] at h ⊢
    · simp at h
    by_cases h7 : mids = []
    · rw [if_pos h7] at h
      simp at h
    · rw [if_neg h7] at h ⊢
      by_cases h8 : env.saveCheckpointOk = true
      · rw [if_pos h8] at h ⊢
        refine ⟨cpIds, mids, rfl, rfl, ?_, rfl, rfl, rfl, rfl⟩
        simp only [Option.some.injEq] at h
        exact h.symm
      · rw [if_neg h8] at h
        simp at h

/-- C3: a MessageId already in the checkpoint set loaded at the start of a
channel-sweep run is never fetched and never saved again during that run
(the loop skips it), and whenever the run persists a checkpoint set at its
end, that set contains every id loaded at the start — the set only grows. -/
theorem c3_checkpoint_monotone (env : TeamsEnv) (auth : AuthConfig)
    (targ carg savePath : String) (cpIds : List String) (cp : Finset String)
    (hload : loadCheckpointIds env.checkpointFile = .ok cpIds)
    (hsave : (runChannelAutomation env auth targ carg savePath).savedCheckpoint = some cp) :
    (∀ id ∈ cpIds,
      id ∉ (runChannelAutomation env auth targ carg savePath).fetched ∧
      id ∉ (runChannelAutomation env auth targ carg savePath).savedMsgs) ∧
    cpIds.toFinset ⊆ cp := by
  obtain ⟨p1, p2, p3, p4, p5, p6⟩ := runChannel_projections env auth targ carg savePath
  rw [p1] at hsave
  obtain ⟨cpIds', mids, hload', hlist, hcpEq, hfEq, hsEq, hpEq, htEq⟩ :=
    channelBody_success env auth targ carg savePath cp hsave
  rw [hload] at hload'
  have hids : cpIds = cpIds' := Except.ok.inj hload'
  subst hids
  obtain ⟨l1, l2, l3, l4, l5, l6⟩ :=
    channelLoop_spec env savePath mids ⟨cpIds.toFinset, 0, [], [], []⟩
  constructor
  · intro id hid
    constructor
    · intro hmem
      rw [p2, hfEq] at hmem
      rcases l4 id hmem with hx | hx
      · simp at hx
      · exact hx (by simpa using hid)
    · intro hmem
      rw [p3, hsEq] at hmem
      rcases l5 id hmem with hx | hx
      · simp at hx
      · exact hx (by simpa using hid)
  · rw [hcpEq]
    exact l1

/-- C10: whenever a channel-sweep run reaches the checkpoint-save step, the
processed count it reports equals the number of ids newly added to the
checkpoint set during the run (the persisted set's size minus the loaded
set's size, the loaded set being contained in it by C3), and is at most
the number of listed ids. -/
theorem c10_processed_counts (env : TeamsEnv) (auth : AuthConfig)
    (targ carg savePath : String) (cpIds : List String) (cp : Finset String)
    (hload : loadCheckpointIds env.checkpointFile = .ok cpIds)
    (hsave : (runChannelAutomation env auth targ carg savePath).savedCheckpoint = some cp) :
    cp.card = cpIds.toFinset.card +
      (runChannelAutomation env auth targ carg savePath).processed ∧
    (runChannelAutomation env auth targ carg savePath).processed ≤
      (runChannelAutomation env auth targ carg savePath).total := by
  obtain ⟨p1, p2, p3, p4, p5, p6⟩ := runChannel_projections env auth targ carg savePath
  rw [p1] at hsave
  obtain ⟨cpIds', mids, hload', hlist, hcpEq, hfEq, hsEq, hpEq, htEq⟩ :=
    channelBody_success env auth targ carg savePath cp hsave
  rw [hload] at hload'
  have hids : cpIds = cpIds' := Except.ok.inj hload'
  subst hids
  obtain ⟨l1, l2, l3, l4, l5, l6⟩ :=
    channelLoop_spec env savePath mids ⟨cpIds.toFinset, 0, [], [], []⟩
  constructor
  · rw [p4, hpEq, hcpEq]
    simpa using l2
  · rw [p4, p5, hpEq, htEq]
    simpa using l3

theorem c3_witness :
    "a" ∉ (runChannelAutomation tEnvW tAuthCfg "t-t-t-t-0" "c-c-c-c-0" "p").fetched ∧
    "a" ∉ (runChannelAutomation tEnvW tAuthCfg "t-t-t-t-0" "c-c-c-c-0" "p").savedMsgs :=
  (c3_checkpoint_monotone tEnvW tAuthCfg "t-t-t-t-0" "c-c-c-c-0" "p" ["a"] tCpW
    rfl (by decide)).1 "a" (by decide)

theorem c10_witness :
    tCpW.card = (["a"] : List String).toFinset.card +
      (runChannelAutomation tEnvW tAuthCfg "t-t-t-t-0" "c-c-c-c-0" "p").processed ∧
    (runChannelAutomation tEnvW tAuthCfg "t-t-t-t-0" "c-c-c-c-0" "p").processed ≤
      (runChannelAutomation tEnvW tAuthCfg "t-t-t-t-0" "c-c-c-c-0" "p").total :=
  c10_processed_counts tEnvW tAuthCfg "t-t-t-t-0" "c-c-c-c-0" "p" ["a"] tCpW
    rfl (by decide)

/-- C1: the channel orchestrator never lets an exception escape — both
run-level handlers and the `finally` return a `(success, message)` pair for
every environment.  The mailbox orchestrator, however, violates the claim:
when the login fails (bad credentials), the run-level handler formats
`msg_id.decode()` before the loop has bound `msg_id`, so a `NameError`
escapes `run_email_automation` instead of a `(False, message)` pair. -/
theorem c1_sweep_boundary :
    (∀ (env : TeamsEnv) (auth : AuthConfig) (targ carg savePath : String),
      exceptOk (runChannelAutomation env auth targ carg savePath).outcome = true) ∧
    (runEmailAutomation gEnvBadLogin "user" "Quelle" "Ziel" "pfad").outcome =
      .error (GRunErr.nameError "msg_id") := by
  constructor
  · intro env auth targ carg savePath
    rcases hr : (channelBody env auth targ carg savePath).result with p | e <;>
      simp [runChannelAutomation, exceptOk, hr]
  · rfl

theorem teamsLogin_trace_events (env : TAuthEnv) (auth : AuthConfig)
    (tok : Option String) :
    ∀ e ∈ (teamsLogin env auth tok).1, e = TEvent.authRoundTrip := by
  intro e he
  unfold teamsLogin at he
  repeat' split at he
  all_goals simp_all

theorem channelBody_trace_shape (env : TeamsEnv) (auth : AuthConfig)
    (targ carg savePath : String) (ht : countDashes targ = 4)
    (hc : countDashes carg = 4) (P : TEvent → Prop)
    (hrtP : P TEvent.authRoundTrip)
    (hckP : P (TEvent.checkChannel targ carg))
    (hlmP : P (TEvent.listMessages targ carg))
    (hfmP : ∀ m, P (TEvent.fetchMessage m))
    (hwcP : P TEvent.writeCheckpoint) :
    ∀ e ∈ (channelBody env auth targ carg savePath).trace, P e := by
  have hrt : resolveTeam env targ = ([], .ok targ) := by simp [resolveTeam, ht]
  have hrc : resolveChannel env targ carg = ([], .ok carg) := by
    simp [resolveChannel, hc]
  have hlgP : ∀ e ∈ (teamsLogin env.auth auth none).1, P e := by
    intro e he
    rw [teamsLogin_trace_events env.auth auth none e he]
    exact hrtP
  have hckP' : ∀ e ∈ [TEvent.checkChannel targ carg], P e := by
    intro e he
    rw [List.mem_singleton] at he
    rw [he]
    exact hckP
  have hlmP' : ∀ e ∈ [TEvent.listMessages targ carg], P e := by
    intro e he
    rw [List.mem_singleton] at he
    rw [he]
    exact hlmP
  have hwcP' : ∀ e ∈ [TEvent.writeCheckpoint], P e := by
    intro e he
    rw [List.mem_singleton] at he
    rw [he]
    exact hwcP
  have hmapP : ∀ (l : List String), ∀ e ∈ l.map TEvent.fetchMessage, P e := by
    intro l e he
    rcases List.mem_map.mp he with ⟨m, _, hm⟩
    rw [← hm]
    exact hfmP m
  unfold channelBody
  simp only [hrt, hrc, List.append_nil]
  rcases h1 : (teamsLogin env.auth auth none).2.1 with e1 | u <;> simp only [h1]
  · exact hlgP
  · rcases h4 : env.channelExistsResult targ carg with e4 | ex <;> simp only [h4]
    · exact List.forall_mem_append.mpr ⟨hlgP, hckP'⟩
    · rcases ex with _ | _
      · rw [if_pos (by simp)]
        exact List.forall_mem_append.mpr ⟨hlgP, hckP'⟩
      · rw [if_neg (by simp)]
        rcases h5 : loadCheckpointIds env.checkpointFile with e5 | cpIds <;>
          simp only [h5]
        · exact List.forall_mem_append.mpr ⟨hlgP, hckP'⟩
        · rcases h6 : env.listResult with e6 | mids <;> simp only [h6]
          · exact List.forall_mem_append.mpr
              ⟨List.forall_mem_append.mpr ⟨hlgP, hckP'⟩, hlmP'⟩
          · by_cases h7 : mids = []
            · rw [if_pos h7]
              exact List.forall_mem_append.mpr
                ⟨List.forall_mem_append.mpr ⟨hlgP, hckP'⟩, hlmP'⟩
            · rw [if_neg h7]
              by_cases h8 : env.saveCheckpointOk = true
              · rw [if_pos h8]
                exact List.forall_mem_append.mpr
                  ⟨List.forall_mem_append.mpr
                    ⟨List.forall_mem_append.mpr
                      ⟨List.forall_mem_append.mpr ⟨hlgP, hckP'⟩, hlmP'⟩, hmapP _⟩, hwcP'⟩
              · rw [if_neg h8]
                exact List.forall_mem_append.mpr
                  ⟨List.forall_mem_append.mpr
                    ⟨List.forall_mem_append.mpr ⟨hlgP, hckP'⟩, hlmP'⟩, hmapP _⟩

/-- C9: `run_channel_automation` decides GUID-ness of its team and channel
arguments solely by counting hyphens.  For arguments with exactly four
hyphens no name lookup ever happens, and every channel-existence check in
the trace uses both argument strings verbatim as the remote ids — a
display name that happens to contain exactly four hyphens is never looked
up by name. -/
theorem c9_naive_guid_check (env : TeamsEnv) (auth : AuthConfig)
    (targ carg savePath : String) (ht : countDashes targ = 4)
    (hc : countDashes carg = 4) :
    TEvent.lookupTeams ∉ (runChannelAutomation env auth targ carg savePath).trace ∧
    (∀ tid, TEvent.lookupChannels tid ∉
      (runChannelAutomation env auth targ carg savePath).trace) ∧
    (∀ a b, TEvent.checkChannel a b ∈
        (runChannelAutomation env auth targ carg savePath).trace →
      a = targ ∧ b = carg) := by
  obtain ⟨-, -, -, -, -, p6⟩ := runChannel_projections env auth targ carg savePath
  refine ⟨?_, ?_, ?_⟩
  · intro hmem
    rw [p6] at hmem
    rcases List.mem_append.mp hmem with h | h
    · exact channelBody_trace_shape env auth targ carg savePath ht hc
        (fun e => e ≠ TEvent.lookupTeams) (by simp) (by simp) (by simp)
        (fun m => by simp) (by simp) _ h rfl
    · simp at h
  · intro tid hmem
    rw [p6] at hmem
    rcases List.mem_append.mp hmem with h | h
    · exact channelBody_trace_shape env auth targ carg savePath ht hc
        (fun e => e ≠ TEvent.lookupChannels tid) (by simp) (by simp) (by simp)
        (fun m => by simp) (by simp) _ h rfl
    · simp at h
  · intro a b hmem
    rw [p6] at hmem
    rcases List.mem_append.mp hmem with h | h
    · have hP := channelBody_trace_shape env auth targ carg savePath ht hc
        (fun e => ∀ x y, e = TEvent.checkChannel x y → x = targ ∧ y = carg)
        (by intro x y hx; simp at hx)
        (by intro x y hx
            simp only [TEvent.checkChannel.injEq] at hx
            exact ⟨hx.1.symm, hx.2.symm⟩)
        (by intro x y hx; simp at hx)
        (fun m => by intro x y hx; simp at hx)
        (by intro x y hx; simp at hx) _ h
      exact hP a b rfl
    · simp at h

theorem c9_witness :
    TEvent.lookupTeams ∉
      (runChannelAutomation tEnvW tAuthCfg "Projekt-Nord-Ost-Sued-West"
        "c-c-c-c-0" "p").trace :=
  (c9_naive_guid_check tEnvW tAuthCfg "Projekt-Nord-Ost-Sued-West" "c-c-c-c-0" "p"
    (by decide) (by decide)).1

/-! ## Lemmas about the mailbox loop -/

theorem gmailHasAttachments_trace (env : GmailEnv) (msgId : Nat) :
    (gmailHasAttachments env msgId).1 = [GEvent.fetch msgId] := by
  unfold gmailHasAttachments gmailFetchEmailMessage
  cases env.fetchMsg msgId <;> rfl

theorem gmailAttLoop_no_fetch (env : GmailEnv) (msgId : Nat) (savePath : String) :
    ∀ (parts : List GPart) (saved j : Nat),
      GEvent.fetch j ∉ (gmailAttLoop env msgId savePath parts saved).1
  | [], saved, j => by simp [gmailAttLoop]
  | p :: rest, saved, j => by
    unfold gmailAttLoop
    split
    · exact gmailAttLoop_no_fetch env msgId savePath rest saved j
    · split
      · exact gmailAttLoop_no_fetch env msgId savePath rest saved j
      · split
        · exact gmailAttLoop_no_fetch env msgId savePath rest saved j
        · split
          · simp
          · split
            · intro hmem
              rcases List.mem_cons.mp hmem with h | h
              · simp at h
              · exact gmailAttLoop_no_fetch env msgId savePath rest (saved + 1) j h
            · simp

theorem gmailSaveAttachments_fetch (env : GmailEnv) (msgId : Nat) (savePath : String)
    (j : Nat) (h : GEvent.fetch j ∈ (gmailSaveAttachments env msgId savePath).1) :
    j = msgId := by
  unfold gmailSaveAttachments at h
  split at h
  · simp at h
  · split at h
    · rw [List.mem_singleton] at h
      exact (GEvent.fetch.inj h)
    · rcases List.mem_cons.mp h with h | h
      · exact (GEvent.fetch.inj h)
      · exact absurd h (gmailAttLoop_no_fetch env msgId savePath _ 0 j)

theorem gmailStepMove_ok (env : GmailEnv) (source target : String) (acc4 : GLoopAcc)
    (msgId : Nat) (hcp : env.copyOk msgId = true) :
    (gmailStepMove env source target acc4 msgId).2 = none ∧
    (gmailStepMove env source target acc4 msgId).1.movedIds = acc4.movedIds ++ [msgId] ∧
    (gmailStepMove env source target acc4 msgId).1.savedBodies = acc4.savedBodies ∧
    (gmailStepMove env source target acc4 msgId).1.processed = acc4.processed + 1 ∧
    (∀ j, GEvent.fetch j ∈ (gmailStepMove env source target acc4 msgId).1.trace →
      GEvent.fetch j ∈ acc4.trace) := by
  have hmv : gmailMoveObject env msgId source target =
      ([GEvent.selectFolder source, GEvent.copy msgId target, GEvent.store msgId,
        GEvent.expunge], .ok ()) := by
    unfold gmailMoveObject
    rw [if_pos hcp]
  unfold gmailStepMove
  rw [hmv]
  refine ⟨rfl, rfl, rfl, rfl, ?_⟩
  intro j hj
  simp only [List.mem_append] at hj
  rcases hj with hj | hj
  · exact hj
  · simp at hj

theorem gmailStep_ok (env : GmailEnv) (source target savePath : String)
    (acc : GLoopAcc) (msgId : Nat) (h : gmailItemSucceeds env msgId) :
    (gmailStep env source target savePath acc msgId).2 = none ∧
    (gmailStep env source target savePath acc msgId).1.movedIds =
      acc.movedIds ++ [msgId] ∧
    (gmailStep env source target savePath acc msgId).1.savedBodies =
      acc.savedBodies ++ [msgId] ∧
    (gmailStep env source target savePath acc msgId).1.processed = acc.processed + 1 ∧
    (∀ j, GEvent.fetch j ∈ (gmailStep env source target savePath acc msgId).1.trace →
      GEvent.fetch j ∈ acc.trace ∨ j = msgId) := by
  obtain ⟨hf, hmk, hwb, hcp⟩ := h
  rcases hfm : env.fetchMsg msgId with m | msg
  · rw [hfm] at hf
    simp [exceptOk] at hf
  · have hHA : gmailHasAttachments env msgId = ([GEvent.fetch msgId],
        .ok (msg.parts.any (fun p => !p.isMultipart && p.contentDisposition.isSome))) := by
      unfold gmailHasAttachments gmailFetchEmailMessage
      rw [hfm]
    have hSE : gmailSaveEmail env msgId savePath =
        ([GEvent.fetch msgId, GEvent.writeFile (pathJoin (pathJoin savePath "E-Mails")
            (gmailEmailFilename msg.subject msgId))],
          .ok (gmailEmailFilename msg.subject msgId)) := by
      unfold gmailSaveEmail
      rw [if_neg (by simp [hmk]), hfm]
      dsimp only
      rw [if_pos hwb]
    unfold gmailStep
    rw [hHA]
    dsimp only
    unfold gmailStepAfterHas
    rw [hSE]
    dsimp only
    set acc2 : GLoopAcc :=
      (if msg.parts.any (fun p => !p.isMultipart && p.contentDisposition.isSome) then
        { acc with
            trace := acc.trace ++ [GEvent.fetch msgId] ++
              (gmailSaveAttachments env msgId savePath).1,
            attWrites := acc.attWrites ++ (gmailSaveAttachments env msgId savePath).2.1 }
       else { acc with trace := acc.trace ++ [GEvent.fetch msgId] }) with hacc2
    have hacc2trace : ∀ j, GEvent.fetch j ∈ acc2.trace →
        GEvent.fetch j ∈ acc.trace ∨ j = msgId := by
      intro j hj
      rw [hacc2] at hj
      split at hj
      · simp only [List.mem_append] at hj
        rcases hj with (hj | hj) | hj
        · exact Or.inl hj
        · exact Or.inr (GEvent.fetch.inj (List.mem_singleton.mp hj))
        · exact Or.inr (gmailSaveAttachments_fetch env msgId savePath j hj)
      · simp only [List.mem_append] at hj
        rcases hj with hj | hj
        · exact Or.inl hj
        · exact Or.inr (GEvent.fetch.inj (List.mem_singleton.mp hj))
    have hacc2moved : acc2.movedIds = acc.movedIds := by
      rw [hacc2]; split <;> rfl
    have hacc2saved : acc2.savedBodies = acc.savedBodies := by
      rw [hacc2]; split <;> rfl
    have hacc2proc : acc2.processed = acc.processed := by
      rw [hacc2]; split <;> rfl
    obtain ⟨m1, m2, m3, m4, m5⟩ := gmailStepMove_ok env source target
      { acc2 with
          trace := acc2.trace ++ [GEvent.fetch msgId,
            GEvent.writeFile (pathJoin (pathJoin savePath "E-Mails")
              (gmailEmailFilename msg.subject msgId))],
          savedBodies := acc2.savedBodies ++ [msgId] } msgId hcp
    refine ⟨m1, ?_, ?_, ?_, ?_⟩
    · rw [m2]
      simp [hacc2moved]
    · rw [m3]
      simp [hacc2saved]
    · rw [m4]
      simp [hacc2proc]
    · intro j hj
      have := m5 j hj
      simp only [List.mem_append] at this
      rcases this with hj2 | hj2
      · exact hacc2trace j hj2
      · rcases List.mem_cons.mp hj2 with h3 | h3
        · exact Or.inr (GEvent.fetch.inj h3)
        · simp at h3

theorem gmailStep_bodyFail (env : GmailEnv) (source target savePath : String)
    (acc : GLoopAcc) (msgId : Nat) (h : gmailBodySaveFails env msgId) :
    (∃ e, (gmailStep env source target savePath acc msgId).2 = some (msgId, e) ∧
      e.type = GErrorType.filesystemError) ∧
    (gmailStep env source target savePath acc msgId).1.movedIds = acc.movedIds ∧
    (gmailStep env source target savePath acc msgId).1.savedBodies = acc.savedBodies ∧
    (gmailStep env source target savePath acc msgId).1.processed = acc.processed ∧
    (∀ j, GEvent.fetch j ∈ (gmailStep env source target savePath acc msgId).1.trace →
      GEvent.fetch j ∈ acc.trace ∨ j = msgId) := by
  obtain ⟨hf, hmk, hwb⟩ := h
  rcases hfm : env.fetchMsg msgId with m | msg
  · rw [hfm] at hf
    simp [exceptOk] at hf
  · have hHA : gmailHasAttachments env msgId = ([GEvent.fetch msgId],
        .ok (msg.parts.any (fun p => !p.isMultipart && p.contentDisposition.isSome))) := by
      unfold gmailHasAttachments gmailFetchEmailMessage
      rw [hfm]
    have hSE : gmailSaveEmail env msgId savePath = ([GEvent.fetch msgId],
        .error ⟨GErrorType.filesystemError,
          "Dateisystem-Fehler beim Speichern der E-Mail " ++
            gmailEmailFilename msg.subject msgId⟩) := by
      unfold gmailSaveEmail
      rw [if_neg (by simp [hmk]), hfm]
      dsimp only
      rw [if_neg (by simp [hwb])]
    unfold gmailStep
    rw [hHA]
    dsimp only
    unfold gmailStepAfterHas
    rw [hSE]
    dsimp only
    set acc2 : GLoopAcc :=
      (if msg.parts.any (fun p => !p.isMultipart && p.contentDisposition.isSome) then
        { acc with
            trace := acc.trace ++ [GEvent.fetch msgId] ++
              (gmailSaveAttachments env msgId savePath).1,
            attWrites := acc.attWrites ++ (gmailSaveAttachments env msgId savePath).2.1 }
       else { acc with trace := acc.trace ++ [GEvent.fetch msgId] }) with hacc2
    refine ⟨⟨_, rfl, rfl⟩, ?_, ?_, ?_, ?_⟩
    · rw [hacc2]; split <;> rfl
    · rw [hacc2]; split <;> rfl
    · rw [hacc2]; split <;> rfl
    · intro j hj
      simp only [List.mem_append] at hj
      rcases hj with hj | hj
      · rw [hacc2] at hj
        split at hj
        · simp only [List.mem_append] at hj
          rcases hj with (hj | hj) | hj
          · exact Or.inl hj
          · exact Or.inr (GEvent.fetch.inj (List.mem_singleton.mp hj))
          · exact Or.inr (gmailSaveAttachments_fetch env msgId savePath j hj)
        · simp only [List.mem_append] at hj
          rcases hj with hj | hj
          · exact Or.inl hj
          · exact Or.inr (GEvent.fetch.inj (List.mem_singleton.mp hj))
      · exact Or.inr (GEvent.fetch.inj (List.mem_singleton.mp hj))

theorem gmailLoop_pre (env : GmailEnv) (source target savePath : String) :
    ∀ (pre : List Nat) (bad : Nat) (post : List Nat) (acc : GLoopAcc),
      (∀ id ∈ pre, gmailItemSucceeds env id) →
      gmailBodySaveFails env bad →
      (∃ e, (gmailLoop env source target savePath (pre ++ bad :: post) acc).2 =
          some (bad, e) ∧ e.type = GErrorType.filesystemError) ∧
      (gmailLoop env source target savePath (pre ++ bad :: post) acc).1.movedIds =
        acc.movedIds ++ pre ∧
      (gmailLoop env source target savePath (pre ++ bad :: post) acc).1.processed =
        acc.processed + pre.length ∧
      (∀ j, GEvent.fetch j ∈
          (gmailLoop env source target savePath (pre ++ bad :: post) acc).1.trace →
        GEvent.fetch j ∈ acc.trace ∨ j ∈ pre ∨ j = bad)
  | [], bad, post, acc, _, hbad => by
    obtain ⟨⟨e, he, het⟩, hm, hs, hp, ht⟩ :=
      gmailStep_bodyFail env source target savePath acc bad hbad
    rcases hstep : gmailStep env source target savePath acc bad with ⟨acc1, err⟩
    rw [hstep] at he hm hp ht
    simp only at he hm hp ht
    rw [List.nil_append]
    unfold gmailLoop
    rw [hstep, he]
    refine ⟨⟨e, rfl, het⟩, by simpa using hm, by simpa using hp, ?_⟩
    intro j hj
    rcases ht j hj with hj | hj
    · exact Or.inl hj
    · exact Or.inr (Or.inr hj)
  | p :: pre, bad, post, acc, hpre, hbad => by
    obtain ⟨s1, s2, s3, s4, s5⟩ := gmailStep_ok env source target savePath acc p
      (hpre p (List.mem_cons_self _ _))
    rcases hstep : gmailStep env source target savePath acc p with ⟨acc1, err⟩
    rw [hstep] at s1 s2 s3 s4 s5
    simp only at s1 s2 s3 s4 s5
    subst s1
    obtain ⟨ih1, ih2, ih3, ih4⟩ := gmailLoop_pre env source target savePath pre bad post
      acc1 (fun id hid => hpre id (List.mem_cons_of_mem _ hid)) hbad
    rw [List.cons_append]
    unfold gmailLoop
    rw [hstep]
    refine ⟨ih1, ?_, ?_, ?_⟩
    · rw [ih2, s2, List.append_assoc]
      rfl
    · rw [ih3, s4, List.length_cons]
      omega
    · intro j hj
      rcases ih4 j hj with hj | hj | hj
      · rcases s5 j hj with hj2 | hj2
        · exact Or.inl hj2
        · exact Or.inr (Or.inl (hj2 ▸ List.mem_cons_self _ _))
      · exact Or.inr (Or.inl (List.mem_cons_of_mem _ hj))
      · exact Or.inr (Or.inr hj)

/-- C2: a per-item failure in the channel loop is caught and the loop
continues — every listed id is either already in the processed set or gets
fetched, no matter which earlier items failed.  In the mailbox loop an
uncaught per-item error (here: the body write failing) escapes at the
failing id: the items before it are fully processed and moved, the items
after it are never fetched, and the run-level handler turns the escaped
error into a `(False, message)` result naming the offending id, with the
partial progress (the moves already done) retained. -/
theorem c2_per_item_failure :
    (∀ (env : TeamsEnv) (savePath : String) (mids : List String) (st : TLoopSt)
      (mid : String), mid ∈ mids →
      mid ∈ st.processedIds ∨ mid ∈ (channelLoop env savePath mids st).fetched) ∧
    (∀ (env : GmailEnv) (source target savePath : String) (pre : List Nat)
      (bad : Nat) (post : List Nat),
      (∀ id ∈ pre, gmailItemSucceeds env id) →
      gmailBodySaveFails env bad →
      (∃ e, (gmailLoop env source target savePath (pre ++ bad :: post) gAcc0).2 =
        some (bad, e)) ∧
      (gmailLoop env source target savePath (pre ++ bad :: post) gAcc0).1.movedIds =
        pre ∧
      (∀ j, GEvent.fetch j ∈
          (gmailLoop env source target savePath (pre ++ bad :: post) gAcc0).1.trace →
        j ∈ pre ∨ j = bad)) ∧
    (∀ (env : GmailEnv) (user source target savePath : String) (pre : List Nat)
      (bad : Nat) (post : List Nat) (raw : List Nat) (fl : List String),
      env.imapLoginError = none →
      env.folders = .ok fl →
      fl.contains source = true →
      fl.contains target = true →
      env.searchIds = .ok raw →
      sortDesc raw = pre ++ bad :: post →
      (∀ id ∈ pre, gmailItemSucceeds env id) →
      gmailBodySaveFails env bad →
      ∃ e : GmailError,
        (runEmailAutomation env user source target savePath).outcome =
          .ok (false, "Fehler bei der Verarbeitung von E-Mail " ++ natDecimal bad ++
            ": " ++ e.message) ∧
        (runEmailAutomation env user source target savePath).movedIds = pre ∧
        (runEmailAutomation env user source target savePath).processed = pre.length) := by
  refine ⟨?_, ?_, ?_⟩
  · exact fun env savePath mids st mid h =>
      channelLoop_mem_fetched env savePath mids st mid h
  · intro env source target savePath pre bad post hpre hbad
    obtain ⟨⟨e, he, _⟩, hm, hp, ht⟩ :=
      gmailLoop_pre env source target savePath pre bad post gAcc0 hpre hbad
    refine ⟨⟨e, he⟩, by simpa [gAcc0] using hm, ?_⟩
    intro j hj
    rcases ht j hj with hj | hj
    · simp [gAcc0] at hj
    · exact hj
  · intro env user source target savePath pre bad post raw fl hlogin hfl hsrc htgt
      hraw hsort hpre hbad
    obtain ⟨⟨e, he, _⟩, hm, hp, _⟩ :=
      gmailLoop_pre env source target savePath pre bad post gAcc0 hpre hbad
    rw [← hsort] at he hm hp
    have hlg : gmailLogin env user none = ([GEvent.login], .ok (), some "AUTH") := by
      simp [gmailLogin, gmailLoginAttempt, hlogin]
    have hfe1 : gmailFolderExists env source = ([GEvent.listFolders], .ok true) := by
      simp only [gmailFolderExists, gmailListAllFolders, hfl, hsrc]
    have hfe2 : gmailFolderExists env target = ([GEvent.listFolders], .ok true) := by
      simp only [gmailFolderExists, gmailListAllFolders, hfl, htgt]
    have hgi : gmailGetMessageIds env source =
        ([GEvent.selectFolder source, GEvent.searchAll], .ok (sortDesc raw)) := by
      simp [gmailGetMessageIds, hraw]
    have hne : ¬ (sortDesc raw = []) := by
      rw [hsort]
      simp
    refine ⟨e, ?_⟩
    unfold runEmailAutomation
    rw [hlg]
    dsimp only
    rw [hfe1]
    dsimp only
    rw [if_neg (by simp)]
    rw [hfe2]
    dsimp only
    rw [if_neg (by simp)]
    rw [hgi]
    dsimp only
    rw [if_neg hne]
    rcases hlp : gmailLoop env source target savePath (sortDesc raw) gAcc0 with
      ⟨accF, err⟩
    rw [hlp] at he hm hp
    simp only at he hm hp
    rw [he]
    dsimp only
    refine ⟨rfl, by simpa [gAcc0] using hm, by simpa [gAcc0] using hp⟩

theorem c2_witness :
    (runEmailAutomation gEnvBodyFail "u" "Quelle" "Ziel" "pfad").movedIds = [3] ∧
    (runEmailAutomation gEnvBodyFail "u" "Quelle" "Ziel" "pfad").processed = 1 ∧
    (runChannelAutomation tEnvFailB tAuthCfg "t-t-t-t-0" "c-c-c-c-0" "p").fetched =
      ["b", "c"] ∧
    (runChannelAutomation tEnvFailB tAuthCfg "t-t-t-t-0" "c-c-c-c-0" "p").processed = 1 := by
  have h := (c2_per_item_failure.2.2 gEnvBodyFail "u" "Quelle" "Ziel" "pfad"
    [3] 2 [1] [1, 2, 3] ["Quelle", "Ziel"] rfl rfl (by decide) (by decide) rfl
    (by decide) (by decide) (by decide))
  exact ⟨h.choose_spec.2.1, h.choose_spec.2.2, by decide, by decide⟩

/-! ## Attachment isolation -/

theorem teamsAttLoop_isolated (fs : TeamsFsEnv) (savePath : String) :
    ∀ (atts : List TAttachment),
      (∀ a ∈ atts, (∃ ws, downloadAttachment fs a savePath = .ok ws) ∨
        (∃ e, downloadAttachment fs a savePath = .error (.lib e))) →
      teamsAttLoop fs savePath atts = ((atts.map (okWrites fs savePath)).flatten, none)
  | [], _ => by simp [teamsAttLoop]
  | a :: rest, h => by
    have hrest := teamsAttLoop_isolated fs savePath rest
      (fun x hx => h x (List.mem_cons_of_mem _ hx))
    rcases h a (List.mem_cons_self _ _) with ⟨ws, hws⟩ | ⟨e, he⟩
    · unfold teamsAttLoop
      rw [hws]
      dsimp only
      rw [hrest]
      simp [okWrites, hws]
    · unfold teamsAttLoop
      rw [he]
      dsimp only
      rw [hrest]
      simp [okWrites, he]

/-- C5 (amended): in the channel adapter the failure of one attachment —
an empty embedded payload raising the library's error, or a failed
by-reference download, which writes a pointer file instead of raising —
never aborts `save_attachments` for the remaining attachments, and such a
message is still saved and marked processed by the sweep.  In the mailbox
adapter, a malformed attachment aborts `save_attachments` for the
remaining attachments (see the counterexample), but the sweep still saves
the message body and moves the message, because the orchestrator catches
the attachment error. -/
theorem c5_attachment_isolation :
    (∀ (fs : TeamsFsEnv) (savePath : String) (msg : TMessage),
      fs.mkdirOk (pathJoin savePath "Anlagen") = true →
      (∀ a ∈ msg.attachments,
        (∃ ws, downloadAttachment fs a savePath = .ok ws) ∨
        (∃ e, downloadAttachment fs a savePath = .error (.lib e))) →
      teamsSaveAttachments fs msg savePath =
        ((msg.attachments.map (okWrites fs savePath)).flatten, none)) ∧
    (∀ (env : TeamsEnv) (savePath : String) (st : TLoopSt) (mid : String)
      (msg : TMessage),
      mid ∉ st.processedIds →
      env.getMsg mid = .ok msg →
      ((teamsSaveAttachments env.fs msg savePath).2 = none ∨
        ∃ e, (teamsSaveAttachments env.fs msg savePath).2 = some (.lib e)) →
      (teamsSaveMessage env.fs msg savePath).2 = none →
      (channelStep env savePath st mid).processed = st.processed + 1 ∧
      (channelStep env savePath st mid).savedMsgs = st.savedMsgs ++ [mid] ∧
      (channelStep env savePath st mid).processedIds = insert mid st.processedIds) ∧
    (∀ (env : GmailEnv) (source target savePath : String) (acc : GLoopAcc)
      (msgId : Nat) (e : GmailError),
      gmailItemSucceeds env msgId →
      (gmailSaveAttachments env msgId savePath).2.2 = .error e →
      (gmailStep env source target savePath acc msgId).2 = none ∧
      (gmailStep env source target savePath acc msgId).1.savedBodies =
        acc.savedBodies ++ [msgId] ∧
      (gmailStep env source target savePath acc msgId).1.movedIds =
        acc.movedIds ++ [msgId]) := by
  refine ⟨?_, ?_, ?_⟩
  · intro fs savePath msg hmk hall
    unfold teamsSaveAttachments
    rw [if_neg (by simp [hmk])]
    exact teamsAttLoop_isolated fs savePath msg.attachments hall
  · intro env savePath st mid msg hmem hmsg hatt hsm
    have hAfter : ∀ st2 : TLoopSt,
        (channelAfterAtt env savePath msg st2 mid).processed = st2.processed + 1 ∧
        (channelAfterAtt env savePath msg st2 mid).savedMsgs = st2.savedMsgs ++ [mid] ∧
        (channelAfterAtt env savePath msg st2 mid).processedIds =
          insert mid st2.processedIds := by
      intro st2
      unfold channelAfterAtt
      rcases hsm2 : teamsSaveMessage env.fs msg savePath with ⟨ws2, r3⟩
      rw [hsm2] at hsm
      simp only at hsm
      subst hsm
      exact ⟨rfl, rfl, rfl⟩
    have hItem : ∀ st1 : TLoopSt,
        (channelItem env savePath msg st1 mid).processed = st1.processed + 1 ∧
        (channelItem env savePath msg st1 mid).savedMsgs = st1.savedMsgs ++ [mid] ∧
        (channelItem env savePath msg st1 mid).processedIds =
          insert mid st1.processedIds := by
      intro st1
      unfold channelItem
      by_cases hHA : teamsHasAttachments msg = true
      · rw [if_pos hHA]
        rcases hsa : teamsSaveAttachments env.fs msg savePath with ⟨ws, r2⟩
        rw [hsa] at hatt
        simp only at hatt
        rcases hatt with h2 | ⟨e2, h2⟩ <;> subst h2
        · exact hAfter _
        · exact hAfter _
      · rw [if_neg hHA]
        exact hAfter _
    unfold channelStep
    rw [if_neg hmem, hmsg]
    exact hItem _
  · intro env source target savePath acc msgId e hOK _
    obtain ⟨h1, h2, h3, _, _⟩ := gmailStep_ok env source target savePath acc msgId hOK
    exact ⟨h1, h3, h2⟩

theorem c5_counterexample :
    (gmailSaveAttachments gEnvTwoAtt 7 "base").2.1 = [] ∧
    exceptOk (gmailSaveAttachments gEnvTwoAtt 7 "base").2.2 = false ∧
    (gmailSaveAttachments gEnvOneAtt 7 "base").2.1 = [gmailAttachmentFilename "b.txt" 7 0] :=
  ⟨rfl, rfl, rfl⟩

theorem c5_witness :
    teamsSaveAttachments tFsOk tMsgMixed "base" = (["base/Anlagen/good.pdf"], none) :=
  c5_attachment_isolation.1 tFsOk "base" tMsgMixed rfl
    (by
      intro a ha
      rcases List.mem_cons.mp ha with h | h
      · subst h
        exact Or.inr ⟨⟨"Empty fileAttachment content", TErrKind.api, none⟩, rfl⟩
      · rw [List.mem_singleton.mp h]
        exact Or.inl ⟨["base/Anlagen/good.pdf"], rfl⟩)

/-- C7 (amended): the mailbox adapter's `_login` is idempotent — with an
authenticated connection it returns at once, with no new IMAP round-trip
and no state change — and fails with a `LOGIN_FAILED` error on bad
credentials.  The channel adapter's `_login` fails with an `AUTH` error
when msal is missing or when no token comes back, but it is not
idempotent: it performs a fresh MSAL round-trip on every call, also when
an access token is already present (see the counterexample). -/
theorem c7_login_amended :
    (∀ (env : GmailEnv) (user : String),
      gmailLogin env user (some "AUTH") = ([], .ok (), some "AUTH")) ∧
    (∀ (env : GmailEnv) (user m : String), env.imapLoginError = some m →
      ∃ msg, gmailLogin env user none =
        ([GEvent.login], .error ⟨GErrorType.loginFailed, msg⟩, some "NONAUTH")) ∧
    (∀ (env : TAuthEnv) (auth : AuthConfig) (tok : Option String),
      env.msalAvailable = false →
      ∃ e, (teamsLogin env auth tok).2.1 = .error e ∧ e.kind = TErrKind.auth) ∧
    (∀ (env : TAuthEnv) (auth : AuthConfig) (tok : Option String),
      env.msalAvailable = true → auth.useDeviceCode = true →
      env.deviceFlowHasUserCode = true → env.deviceFlowToken = none →
      ∃ e, (teamsLogin env auth tok).2.1 = .error e ∧ e.kind = TErrKind.auth) ∧
    (∀ (env : TAuthEnv) (auth : AuthConfig) (tok : Option String),
      env.msalAvailable = true → auth.useDeviceCode = true →
      (teamsLogin env auth tok).1 ≠ []) := by
  refine ⟨?_, ?_, ?_, ?_, ?_⟩
  · intro env user
    rfl
  · intro env user m h
    refine ⟨"Login fehlgeschlagen für " ++ user ++
      ": Prüfe Benutzername/App-Passwort oder IMAP-Aktivierung. (" ++ m ++ ")", ?_⟩
    simp [gmailLogin, gmailLoginAttempt, h]
  · intro env auth tok h
    refine ⟨⟨"msal package is not installed. pip install msal", TErrKind.auth, none⟩,
      ?_, rfl⟩
    simp [teamsLogin, h]
  · intro env auth tok h1 h2 h3 h4
    refine ⟨⟨"Auth failed: unknown", TErrKind.auth, none⟩, ?_, rfl⟩
    simp [teamsLogin, h1, h2, h3, h4]
  · intro env auth tok h1 h2
    unfold teamsLogin
    rw [if_neg (by simp [h1]), if_pos h2]
    by_cases hd : env.deviceFlowHasUserCode = true
    · rw [if_neg (by simp [hd])]
      cases env.deviceFlowToken <;> simp
    · rw [if_pos (by simp [hd])]
      simp

theorem c7_counterexample :
    (teamsLogin tAuthOk tAuthCfg (some "TOKEN")).1 =
      [TEvent.authRoundTrip, TEvent.authRoundTrip] ∧
    (teamsLogin tAuthOk tAuthCfg (some "TOKEN")).1 ≠ [] :=
  ⟨rfl, by decide⟩

theorem c7_witness :
    gmailLogin gEnvBadLogin "u" (some "AUTH") = ([], .ok (), some "AUTH") :=
  c7_login_amended.1 gEnvBadLogin "u"

/-- C8 (amended): the channel adapter's `has_attachments` is a pure
inspection of the already-fetched message — true exactly when the
attachment list is non-empty — and the channel loop performs at most one
fetch per id regardless of it.  The mailbox adapter's
`has_attachments(msg_id)` takes an id, not a message, and performs its own
FETCH network call every time it is invoked (see the counterexample). -/
theorem c8_hasattachments_amended :
    (∀ m : TMessage, teamsHasAttachments m = true ↔ m.attachments ≠ []) ∧
    (∀ (env : TeamsEnv) (savePath : String) (st : TLoopSt) (mid : String),
      (channelStep env savePath st mid).fetched = st.fetched ∨
      (channelStep env savePath st mid).fetched = st.fetched ++ [mid]) ∧
    (∀ (env : GmailEnv) (msgId : Nat),
      (gmailHasAttachments env msgId).1 = [GEvent.fetch msgId]) := by
  refine ⟨?_, ?_, ?_⟩
  · intro m
    cases hm : m.attachments <;> simp [teamsHasAttachments, hm]
  · intro env savePath st mid
    rcases (channelStep_facts env savePath st mid).2.2.2.1 with h | ⟨h, _⟩
    · exact Or.inl h
    · exact Or.inr h
  · exact gmailHasAttachments_trace

theorem c8_counterexample :
    (gmailHasAttachments gEnvBodyFail 7).1 = [GEvent.fetch 7] ∧
    (gmailHasAttachments gEnvBodyFail 7).1 ≠ [] :=
  ⟨rfl, by decide⟩

/-- C4 (amended): the mailbox adapter's filenames are sanitized — only
alphanumerics, spaces, dots, underscores and hyphens survive, the result
is at most 200 characters, never empty (the `untitled_file` fallback) —
and carry the message id (and, for attachments, the running index) before
the extension, so two attachments with the same original name but
different message ids or indices never collide, and likewise two bodies
with the same subject but different ids.  The channel adapter does not
sanitize attachment names and does not append the message id (see the
counterexample: same-named attachments of different messages collide). -/
theorem c4_sanitized_names_amended :
    (∀ s : String,
      (∀ c ∈ (sanitizeFilename s).data, allowedChar c = true) ∧
      (sanitizeFilename s).data.length ≤ 200 ∧
      sanitizeFilename s ≠ "") ∧
    (∀ (name : String) (m1 i1 m2 i2 : Nat), (m1, i1) ≠ (m2, i2) →
      gmailAttachmentFilename name m1 i1 ≠ gmailAttachmentFilename name m2 i2) ∧
    (∀ (subject : String) (m1 m2 : Nat), m1 ≠ m2 →
      gmailEmailFilename subject m1 ≠ gmailEmailFilename subject m2) := by
  refine ⟨?_, ?_, ?_⟩
  · intro s
    refine ⟨sanitizeCore_chars s.data, sanitizeCore_length s.data, ?_⟩
    intro h
    exact sanitizeCore_ne_nil s.data (congrArg String.data h)
  · intro name m1 i1 m2 i2 hne h
    exact gmailAttachmentName_inj name.data m1 i1 m2 i2 hne (congrArg String.data h)
  · exact gmailEmailFilename_inj

theorem c4_counterexample :
    (teamsSaveAttachments tFsOk tMsgA "base").1 = ["base/Anlagen/report.pdf"] ∧
    (teamsSaveAttachments tFsOk tMsgB "base").1 = ["base/Anlagen/report.pdf"] ∧
    tMsgA.id ≠ tMsgB.id :=
  ⟨rfl, rfl, by decide⟩

theorem c4_witness :
    gmailAttachmentFilename "a.txt" 1 0 ≠ gmailAttachmentFilename "a.txt" 2 0 :=
  c4_sanitized_names_amended.2.1 "a.txt" 1 0 2 0 (by decide)

theorem c6_witness : teamsRequest respTwice429 = ([2, 2], .ok ⟨200, none⟩) :=
  (c6_request_retry_backoff respTwice429).2 2 (by decide) (by decide) (by decide)

end LcSweep
